import Mathlib

/-!
Verification of the ValueSet-OID extraction and VSAC response-normalization
subsystem of the mercurius-mcp repository.

The JavaScript sources embedded here:
  * src/services/vsacService.js      (parseVsacResponse, parsePurposeField,
                                      retrieveValueSet, retrieveMultipleValueSets,
                                      createBasicAuth, cache handling)
  * src/mcp/resources/config.js      (extractValueSetIdentifiersFromCQL,
                                      validateExtractedOids)
  * src/utils/vsacErrorHandler.js    (handleVsacError, getVsacErrorGuidance)

Modelling conventions:
  * The XML payload, as produced by fast-xml-parser with
    `ignoreAttributes: false, attributeNamePrefix: "@_"`, is modelled as a
    JSON-like tree `JValue` (string leaves, objects as association lists,
    arrays for repeated elements).  The XML parse step itself (an external
    dependency) is abstracted as an `Except String JValue` input: `.error e`
    models a parser exception carrying message `e`.
  * JavaScript truthiness on these values: the empty string is falsy,
    objects and arrays are truthy; `undefined` (an absent key) is falsy.
  * JavaScript exceptions are modelled by `Except`.  Network transport is
    modelled by an explicit `TransportOutcome` oracle, and the stateful
    in-memory cache by explicit state passing of an association list.
-/

/-- A parsed XML document as produced by fast-xml-parser: a string leaf, an
object (association list keyed by element/attribute name), or an array of
repeated sibling elements. -/
inductive JValue where
  | str (s : String)
  | obj (fields : List (String × JValue))
  | arr (elems : List JValue)

/-- JavaScript truthiness of a defined `JValue`: `""` is falsy, every other
string is truthy, objects and arrays are always truthy. -/
def jsTruthy : JValue → Bool
  | .str s => s ≠ ""
  | .obj _ => true
  | .arr _ => true

/-- First-match lookup of a key in an object's field list (JS property read;
the parser never produces duplicate keys). -/
def lookupFields : List (String × JValue) → String → Option JValue
  | [], _ => none
  | (k, v) :: rest, q => if q = k then some v else lookupFields rest q

/-- JS property read `v[k]`: `undefined` (here `none`) on a non-object or a
missing key. -/
def getKey : JValue → String → Option JValue
  | .obj fs, q => lookupFields fs q
  | _, _ => none

/-- JS `if (v[k]) { ... v[k] ... }`: the value of key `k` when present and
truthy, otherwise `none`. -/
def truthyGet (v : JValue) (k : String) : Option JValue :=
  match getKey v k with
  | some x => if jsTruthy x then some x else none
  | none => none

/-- The namespace-ambivalence probe used throughout `parseVsacResponse`:
`if (v[k1]) { v[k1] } else if (v[k2]) { v[k2] }`. -/
def probe2 (v : JValue) (k1 k2 : String) : Option JValue :=
  match truthyGet v k1 with
  | some x => some x
  | none => truthyGet v k2

/-- `Array.isArray(x) ? x : [x]` as used for value-set and concept lists. -/
def toArray : JValue → List JValue
  | .arr xs => xs
  | v => [v]

/-- The set of characters recognised by the JavaScript `\s` class (and by
`String.prototype.trim`). -/
def isJsSpace (c : Char) : Bool :=
  c == ' ' || c == '\t' || c == '\n' || c == '\x0b' || c == '\x0c' || c == '\r' ||
  c.val == 0xA0 || c.val == 0x1680 || (0x2000 ≤ c.val && c.val ≤ 0x200A) ||
  c.val == 0x2028 || c.val == 0x2029 || c.val == 0x202F || c.val == 0x205F ||
  c.val == 0x3000 || c.val == 0xFEFF

/-- JavaScript `String.prototype.trim`: strip `isJsSpace` characters from both
ends. -/
def jsTrim (s : String) : String :=
  ⟨((s.data.dropWhile isJsSpace).reverse.dropWhile isJsSpace).reverse⟩

/-- One labelled-segment extraction of `parsePurposeField`, e.g. the regex
`/\(Clinical Focus:\s*([^)]+)\)/i`: scan left to right for the first position
where the literal label matches case-insensitively and a closing parenthesis
follows with at least one interyacent character; the capture is the text up to
that parenthesis.  (The regex's `\s*`-then-`[^)]+` split is normalised away by
the `.trim()` the source applies to the capture; `findSegment` returns the raw
segment and the caller trims.) -/
def matchCI : List Char → List Char → Option (List Char)
  | [], s => some s
  | _ :: _, [] => none
  | p :: ps, c :: cs => if c.toLower == p then matchCI ps cs else none

def findSegment (label : List Char) : List Char → Option (List Char)
  | [] => none
  | c :: rest =>
    match matchCI label (c :: rest) with
    | some afterLabel =>
      let content := afterLabel.takeWhile (fun ch => !(ch == ')'))
      match afterLabel.dropWhile (fun ch => !(ch == ')')) with
      | _ :: _ => if content.isEmpty then findSegment label rest else some content
      | [] => findSegment label rest
    | none => findSegment label rest

/-- The four clinical-purpose fields derived from the free-text Purpose
element. -/
structure PurposeMeta where
  clinicalFocus : Option String
  dataElementScope : Option String
  inclusionCriteria : Option String
  exclusionCriteria : Option String
deriving DecidableEq

/-- `parsePurposeField` (vsacService.js lines 105-152).  A non-string Purpose
value makes `purposeText.match` throw in the source; that exception is caught
inside `parsePurposeField` itself, yielding all-null metadata, which the
second equation models. -/
def parsePurposeField : JValue → PurposeMeta
  | .str s =>
    { clinicalFocus := (findSegment "(clinical focus:".data s.data).map (fun l => jsTrim ⟨l⟩)
      dataElementScope := (findSegment "(data element scope:".data s.data).map (fun l => jsTrim ⟨l⟩)
      inclusionCriteria := (findSegment "(inclusion criteria:".data s.data).map (fun l => jsTrim ⟨l⟩)
      exclusionCriteria := (findSegment "(exclusion criteria:".data s.data).map (fun l => jsTrim ⟨l⟩) }
  | _ => ⟨none, none, none, none⟩

/-- Metadata of a normalized value set (vsacService.js result.metadata).
Attribute/element values keep their parsed `JValue` shape; the four
purpose-derived fields are trimmed strings. -/
structure ValueSetMetadata where
  id : Option JValue
  displayName : Option JValue
  version : Option JValue
  source : Option JValue
  type : Option JValue
  binding : Option JValue
  status : Option JValue
  revisionDate : Option JValue
  clinicalFocus : Option String
  dataElementScope : Option String
  inclusionCriteria : Option String
  exclusionCriteria : Option String

/-- One normalized concept (vsacService.js concept entries). -/
structure ConceptSummary where
  code : JValue
  codeSystem : JValue
  codeSystemName : JValue
  codeSystemVersion : Option JValue
  displayName : JValue

/-- The unit returned by the normalizer: metadata plus concept list. -/
structure ValueSetResult where
  metadata : ValueSetMetadata
  concepts : List ConceptSummary

/-- The all-null metadata record the normalizer starts from. -/
def emptyMetadata : ValueSetMetadata :=
  ⟨none, none, none, none, none, none, none, none, none, none, none, none⟩

/-- Sentinel concept for a payload containing no value set. -/
def noValueSetConcept : ConceptSummary :=
  ⟨.str "NO_VALUESET", .str "N/A", .str "VSAC", none, .str "No ValueSet found in response"⟩

/-- Sentinel concept for a value set without a concept list. -/
def emptyValueSetConcept : ConceptSummary :=
  ⟨.str "EMPTY_VALUESET", .str "N/A", .str "VSAC",
   none, .str "ValueSet exists but contains no concepts (may be retired)"⟩

/-- Value-set list extraction (vsacService.js lines 185-208): probe the
`ns0:`-prefixed response root first; under it only `ns0:DescribedValueSet` is
probed, while under the unprefixed root `DescribedValueSet` and then
`ValueSet` are probed. -/
def getValueSets (parsed : JValue) : List JValue :=
  match truthyGet parsed "ns0:RetrieveMultipleValueSetsResponse" with
  | some response =>
    match truthyGet response "ns0:DescribedValueSet" with
    | some x => toArray x
    | none => []
  | none =>
    match truthyGet parsed "RetrieveMultipleValueSetsResponse" with
    | some response =>
      match truthyGet response "DescribedValueSet" with
      | some x => toArray x
      | none =>
        match truthyGet response "ValueSet" with
        | some x => toArray x
        | none => []
    | none => []

/-- The purpose-derived metadata of a value set (vsacService.js lines
264-278): the Purpose text goes through the truthiness probe pair and, when
truthy, through `parsePurposeField`. -/
def purposeOf (valueSet : JValue) : PurposeMeta :=
  match probe2 valueSet "ns0:Purpose" "Purpose" with
  | some p => parsePurposeField p
  | none => ⟨none, none, none, none⟩

/-- Metadata extraction from the first value set (vsacService.js lines
229-278): `@_ID`/`@_displayName`/`@_version` are read unconditionally;
the element fields go through the truthiness probe pair. -/
def extractMetadata (valueSet : JValue) : ValueSetMetadata :=
  let pm : PurposeMeta := purposeOf valueSet
  { id := getKey valueSet "@_ID"
    displayName := getKey valueSet "@_displayName"
    version := getKey valueSet "@_version"
    source := probe2 valueSet "ns0:Source" "Source"
    type := probe2 valueSet "ns0:Type" "Type"
    binding := probe2 valueSet "ns0:Binding" "Binding"
    status := probe2 valueSet "ns0:Status" "Status"
    revisionDate := probe2 valueSet "ns0:RevisionDate" "RevisionDate"
    clinicalFocus := pm.clinicalFocus
    dataElementScope := pm.dataElementScope
    inclusionCriteria := pm.inclusionCriteria
    exclusionCriteria := pm.exclusionCriteria }

/-- One concept node (vsacService.js lines 315-334): the four attributes
code/codeSystem/codeSystemName/displayName must all be present and truthy,
otherwise the node is skipped; `codeSystemVersion || null` keeps the fifth
attribute only when truthy. -/
def parseConcept (c : JValue) : Option ConceptSummary :=
  match getKey c "@_code", getKey c "@_codeSystem", getKey c "@_codeSystemName",
        getKey c "@_displayName" with
  | some code, some codeSystem, some codeSystemName, some displayName =>
    if jsTruthy code && jsTruthy codeSystem && jsTruthy codeSystemName && jsTruthy displayName then
      some ⟨code, codeSystem, codeSystemName, truthyGet c "@_codeSystemVersion", displayName⟩
    else none
  | _, _, _, _ => none

/-- Concept-node list of a concept list (vsacService.js lines 301-311). -/
def conceptNodes (conceptList : JValue) : List JValue :=
  match probe2 conceptList "ns0:Concept" "Concept" with
  | some x => toArray x
  | none => []

/-- `parseVsacResponse` (vsacService.js lines 159-368).  The input is the
outcome of `this.parser.parse(responseXml)`: `.error e` models the XML parser
throwing with message `e` (the only exception source inside the `try`; the
traversal itself is total).  The function is total: every input yields a
well-formed `ValueSetResult`. -/
def parseVsacResponse : Except String JValue → ValueSetResult
  | .error e =>
    { metadata :=
        { emptyMetadata with displayName := some (.str "Parse Error"), status := some (.str "ERROR") }
      concepts :=
        [⟨.str "PARSE_ERROR", .str "N/A", .str "VSAC_PARSER",
          none, .str ("XML parsing failed: " ++ e)⟩] }
  | .ok parsed =>
    match getValueSets parsed with
    | [] => { metadata := emptyMetadata, concepts := [noValueSetConcept] }
    | valueSet :: _ =>
      match probe2 valueSet "ns0:ConceptList" "ConceptList" with
      | none => { metadata := extractMetadata valueSet, concepts := [emptyValueSetConcept] }
      | some conceptList =>
        { metadata := extractMetadata valueSet
          concepts := (conceptNodes conceptList).filterMap parseConcept }

/-- C1: the normalizer is a total function of its input (it never raises), and
on any payload that fails to parse as XML with error text `e` it returns the
sentinel result: `metadata.status = "ERROR"`, `metadata.displayName =
"Parse Error"`, all other metadata fields null, and exactly one concept coded
`PARSE_ERROR` whose display name carries the underlying error text. -/
theorem c1_parse_error_sentinel (e : String) :
    parseVsacResponse (.error e) =
      { metadata :=
          { emptyMetadata with
              displayName := some (.str "Parse Error"), status := some (.str "ERROR") }
        concepts :=
          [⟨.str "PARSE_ERROR", .str "N/A", .str "VSAC_PARSER",
            none, .str ("XML parsing failed: " ++ e)⟩] } ∧
    (parseVsacResponse (.error e)).metadata.status = some (.str "ERROR") ∧
    (parseVsacResponse (.error e)).metadata.displayName = some (.str "Parse Error") ∧
    (parseVsacResponse (.error e)).concepts.length = 1 := by
  refine ⟨rfl, rfl, rfl, rfl⟩

/-- C3: a payload with zero value sets normalizes to all-null metadata plus the
single `NO_VALUESET` sentinel concept, and a payload whose first value set has
no (truthy) concept list normalizes to that value set's own extracted metadata
plus the single `EMPTY_VALUESET` sentinel concept. -/
theorem c3_no_valueset_and_empty_valueset_sentinels (parsed : JValue) :
    (getValueSets parsed = [] →
      parseVsacResponse (.ok parsed) =
        { metadata := emptyMetadata, concepts := [noValueSetConcept] }) ∧
    (∀ valueSet rest, getValueSets parsed = valueSet :: rest →
      probe2 valueSet "ns0:ConceptList" "ConceptList" = none →
      parseVsacResponse (.ok parsed) =
        { metadata := extractMetadata valueSet, concepts := [emptyValueSetConcept] }) := by
  constructor
  · intro h
    simp [parseVsacResponse, h]
  · intro valueSet rest hvs hcl
    simp [parseVsacResponse, hvs, hcl]

/-- Concrete witness payloads for `c3_no_valueset_and_empty_valueset_sentinels`:
an empty object (no value sets), and a response whose single value set carries
only an `@_ID` attribute (no concept list). -/
theorem c3_witness :
    parseVsacResponse (.ok (.obj [])) =
      { metadata := emptyMetadata, concepts := [noValueSetConcept] } ∧
    parseVsacResponse
        (.ok (.obj [("RetrieveMultipleValueSetsResponse",
          .obj [("DescribedValueSet", .obj [("@_ID", .str "2.16.840.1.113883.3.464.1003.103.12.1001")])])])) =
      { metadata := extractMetadata (.obj [("@_ID", .str "2.16.840.1.113883.3.464.1003.103.12.1001")])
        concepts := [emptyValueSetConcept] } := by
  constructor
  · exact (c3_no_valueset_and_empty_valueset_sentinels (.obj [])).1 rfl
  · exact (c3_no_valueset_and_empty_valueset_sentinels _).2
      (.obj [("@_ID", .str "2.16.840.1.113883.3.464.1003.103.12.1001")]) [] rfl rfl

/-! ### Namespace-prefix shape equivalence (C2)

The two envelope shapes the source claims to support are modelled by a logical
payload (`VsacPayload`) rendered to the parsed-XML tree twice: once with the
`ns0:` namespace prefix on every element name and once without.  Attributes
(keys starting `@_`) are never prefixed in either shape, matching the parser
output. -/

/-- A field of a rendered object, present only when the optional value is. -/
def optField (k : String) (v : Option JValue) : List (String × JValue) :=
  match v with
  | some x => [(k, x)]
  | none => []

/-- One logical concept node: its five possible attributes. -/
structure ConceptNode where
  code : Option String
  codeSystem : Option String
  codeSystemName : Option String
  codeSystemVersion : Option String
  displayName : Option String

/-- One logical value set: three attributes, six child text elements, and an
optional concept list. -/
structure ValueSetNode where
  id : Option String
  displayName : Option String
  version : Option String
  source : Option String
  type : Option String
  binding : Option String
  status : Option String
  revisionDate : Option String
  purpose : Option String
  conceptList : Option (List ConceptNode)

/-- A logical response payload: its value sets, rendered under the
`DescribedValueSet` element name. -/
structure VsacPayload where
  valueSets : List ValueSetNode

def strOpt (o : Option String) : Option JValue := o.map .str

/-- Truthiness-filtered string option: what a `probe2` on a rendered text
element evaluates to. -/
def truthyStrOpt (o : Option String) : Option JValue :=
  (strOpt o).bind (fun x => if jsTruthy x then some x else none)

/-- Concept attributes render identically in both shapes. -/
def renderConcept (c : ConceptNode) : JValue :=
  .obj (optField "@_code" (strOpt c.code) ++ optField "@_codeSystem" (strOpt c.codeSystem) ++
        optField "@_codeSystemName" (strOpt c.codeSystemName) ++
        optField "@_codeSystemVersion" (strOpt c.codeSystemVersion) ++
        optField "@_displayName" (strOpt c.displayName))

/-- fast-xml-parser collapses a single repeated element to the bare object and
produces an array only for two or more siblings; an empty list means the key
is absent. -/
def renderNodeList : List JValue → Option JValue
  | [] => none
  | [x] => some x
  | xs => some (.arr xs)

/-- A rendered `ConceptList` element, prefixed or not. -/
def renderConceptList : Bool → List ConceptNode → JValue
  | true, cs => .obj (optField "ns0:Concept" (renderNodeList (cs.map renderConcept)))
  | false, cs => .obj (optField "Concept" (renderNodeList (cs.map renderConcept)))

/-- A rendered `DescribedValueSet` element, prefixed or not; attribute keys are
identical in both shapes. -/
def renderVS : Bool → ValueSetNode → JValue
  | true, v =>
    .obj (optField "@_ID" (strOpt v.id) ++ optField "@_displayName" (strOpt v.displayName) ++
          optField "@_version" (strOpt v.version) ++
          optField "ns0:Source" (strOpt v.source) ++ optField "ns0:Type" (strOpt v.type) ++
          optField "ns0:Binding" (strOpt v.binding) ++ optField "ns0:Status" (strOpt v.status) ++
          optField "ns0:RevisionDate" (strOpt v.revisionDate) ++
          optField "ns0:Purpose" (strOpt v.purpose) ++
          optField "ns0:ConceptList" (v.conceptList.map (renderConceptList true)))
  | false, v =>
    .obj (optField "@_ID" (strOpt v.id) ++ optField "@_displayName" (strOpt v.displayName) ++
          optField "@_version" (strOpt v.version) ++
          optField "Source" (strOpt v.source) ++ optField "Type" (strOpt v.type) ++
          optField "Binding" (strOpt v.binding) ++ optField "Status" (strOpt v.status) ++
          optField "RevisionDate" (strOpt v.revisionDate) ++
          optField "Purpose" (strOpt v.purpose) ++
          optField "ConceptList" (v.conceptList.map (renderConceptList false)))

/-- A rendered response envelope, prefixed or not, with value sets under the
`DescribedValueSet` name. -/
def renderResponse : Bool → VsacPayload → JValue
  | true, p =>
    .obj [("ns0:RetrieveMultipleValueSetsResponse",
            .obj (optField "ns0:DescribedValueSet" (renderNodeList (p.valueSets.map (renderVS true)))))]
  | false, p =>
    .obj [("RetrieveMultipleValueSetsResponse",
            .obj (optField "DescribedValueSet" (renderNodeList (p.valueSets.map (renderVS false)))))]

theorem lookupFields_optField_ne {q k : String} (h : ¬ q = k) (o : Option JValue)
    (rest : List (String × JValue)) :
    lookupFields (optField k o ++ rest) q = lookupFields rest q := by
  cases o <;> simp [optField, lookupFields, h]

theorem lookupFields_optField_self (k : String) (o : Option JValue)
    (rest : List (String × JValue)) :
    lookupFields (optField k o ++ rest) k = o.elim (lookupFields rest k) some := by
  cases o <;> simp [optField, lookupFields]

theorem lookupFields_optField_last_ne {q k : String} (h : ¬ q = k) (o : Option JValue) :
    lookupFields (optField k o) q = none := by
  cases o <;> simp [optField, lookupFields, h]

theorem lookupFields_optField_last_self (k : String) (o : Option JValue) :
    lookupFields (optField k o) k = o := by
  cases o <;> simp [optField, lookupFields]

theorem option_elim_none_some {α : Type} (o : Option α) : o.elim none some = o := by
  cases o <;> rfl

theorem probe2_eq (v : JValue) (k1 k2 : String) :
    probe2 v k1 k2 = (truthyGet v k1).elim (truthyGet v k2) some := by
  unfold probe2
  cases h : truthyGet v k1 <;> simp [h]

theorem truthyGet_eq (v : JValue) (k : String) :
    truthyGet v k = (getKey v k).bind (fun x => if jsTruthy x then some x else none) := by
  unfold truthyGet
  cases h : getKey v k <;> simp [h]

theorem getKey_renderVS_id (pfx : Bool) (v : ValueSetNode) :
    getKey (renderVS pfx v) "@_ID" = strOpt v.id := by
  cases pfx <;>
    simp [renderVS, getKey, lookupFields_optField_ne, lookupFields_optField_self,
      lookupFields_optField_last_ne, option_elim_none_some]

theorem getKey_renderVS_displayName (pfx : Bool) (v : ValueSetNode) :
    getKey (renderVS pfx v) "@_displayName" = strOpt v.displayName := by
  cases pfx <;>
    simp [renderVS, getKey, lookupFields_optField_ne, lookupFields_optField_self,
      lookupFields_optField_last_ne, option_elim_none_some]

theorem getKey_renderVS_version (pfx : Bool) (v : ValueSetNode) :
    getKey (renderVS pfx v) "@_version" = strOpt v.version := by
  cases pfx <;>
    simp [renderVS, getKey, lookupFields_optField_ne, lookupFields_optField_self,
      lookupFields_optField_last_ne, option_elim_none_some]

theorem probe2_renderVS_source (pfx : Bool) (v : ValueSetNode) :
    probe2 (renderVS pfx v) "ns0:Source" "Source" = truthyStrOpt v.source := by
  cases pfx <;>
    simp [renderVS, probe2_eq, truthyGet_eq, getKey, truthyStrOpt,
      lookupFields_optField_ne, lookupFields_optField_self,
      lookupFields_optField_last_ne, option_elim_none_some]

theorem probe2_renderVS_type (pfx : Bool) (v : ValueSetNode) :
    probe2 (renderVS pfx v) "ns0:Type" "Type" = truthyStrOpt v.type := by
  cases pfx <;>
    simp [renderVS, probe2_eq, truthyGet_eq, getKey, truthyStrOpt,
      lookupFields_optField_ne, lookupFields_optField_self,
      lookupFields_optField_last_ne, option_elim_none_some]

theorem probe2_renderVS_binding (pfx : Bool) (v : ValueSetNode) :
    probe2 (renderVS pfx v) "ns0:Binding" "Binding" = truthyStrOpt v.binding := by
  cases pfx <;>
    simp [renderVS, probe2_eq, truthyGet_eq, getKey, truthyStrOpt,
      lookupFields_optField_ne, lookupFields_optField_self,
      lookupFields_optField_last_ne, option_elim_none_some]

theorem probe2_renderVS_status (pfx : Bool) (v : ValueSetNode) :
    probe2 (renderVS pfx v) "ns0:Status" "Status" = truthyStrOpt v.status := by
  cases pfx <;>
    simp [renderVS, probe2_eq, truthyGet_eq, getKey, truthyStrOpt,
      lookupFields_optField_ne, lookupFields_optField_self,
      lookupFields_optField_last_ne, option_elim_none_some]

theorem probe2_renderVS_revisionDate (pfx : Bool) (v : ValueSetNode) :
    probe2 (renderVS pfx v) "ns0:RevisionDate" "RevisionDate" = truthyStrOpt v.revisionDate := by
  cases pfx <;>
    simp [renderVS, probe2_eq, truthyGet_eq, getKey, truthyStrOpt,
      lookupFields_optField_ne, lookupFields_optField_self,
      lookupFields_optField_last_ne, option_elim_none_some]

theorem probe2_renderVS_purpose (pfx : Bool) (v : ValueSetNode) :
    probe2 (renderVS pfx v) "ns0:Purpose" "Purpose" = truthyStrOpt v.purpose := by
  cases pfx <;>
    simp [renderVS, probe2_eq, truthyGet_eq, getKey, truthyStrOpt,
      lookupFields_optField_ne, lookupFields_optField_self,
      lookupFields_optField_last_ne, option_elim_none_some]

theorem jsTruthy_renderConceptList (pfx : Bool) (cs : List ConceptNode) :
    jsTruthy (renderConceptList pfx cs) = true := by
  cases pfx <;> rfl

theorem probe2_renderVS_conceptList (pfx : Bool) (v : ValueSetNode) :
    probe2 (renderVS pfx v) "ns0:ConceptList" "ConceptList" =
      v.conceptList.map (renderConceptList pfx) := by
  cases pfx <;> cases hc : v.conceptList <;>
    simp [renderVS, probe2_eq, truthyGet_eq, getKey, hc, jsTruthy_renderConceptList,
      lookupFields_optField_ne, lookupFields_optField_self,
      lookupFields_optField_last_ne, lookupFields_optField_last_self, option_elim_none_some]

theorem conceptNodes_renderConceptList (pfx : Bool) (cs : List ConceptNode) :
    conceptNodes (renderConceptList pfx cs) = cs.map renderConcept := by
  cases pfx <;> rcases cs with _ | ⟨c, _ | ⟨c2, rest⟩⟩ <;>
    simp [renderConceptList, conceptNodes, probe2_eq, truthyGet_eq, getKey,
      renderNodeList, toArray, renderConcept, jsTruthy,
      lookupFields_optField_ne, lookupFields_optField_self,
      lookupFields_optField_last_ne, lookupFields_optField_last_self, option_elim_none_some]

theorem getValueSets_renderResponse (pfx : Bool) (p : VsacPayload) :
    getValueSets (renderResponse pfx p) = p.valueSets.map (renderVS pfx) := by
  cases pfx <;> rcases hvs : p.valueSets with _ | ⟨v, _ | ⟨v2, rest⟩⟩ <;>
    simp [renderResponse, getValueSets, truthyGet_eq, getKey, lookupFields, hvs,
      renderNodeList, toArray, renderVS, jsTruthy,
      lookupFields_optField_ne, lookupFields_optField_self,
      lookupFields_optField_last_ne, lookupFields_optField_last_self, option_elim_none_some]

/-- The metadata any `renderVS`-shaped value set extracts, independent of the
prefix flag. -/
def renderedMetadata (v : ValueSetNode) : ValueSetMetadata :=
  let pm : PurposeMeta :=
    match truthyStrOpt v.purpose with
    | some p => parsePurposeField p
    | none => ⟨none, none, none, none⟩
  { id := strOpt v.id
    displayName := strOpt v.displayName
    version := strOpt v.version
    source := truthyStrOpt v.source
    type := truthyStrOpt v.type
    binding := truthyStrOpt v.binding
    status := truthyStrOpt v.status
    revisionDate := truthyStrOpt v.revisionDate
    clinicalFocus := pm.clinicalFocus
    dataElementScope := pm.dataElementScope
    inclusionCriteria := pm.inclusionCriteria
    exclusionCriteria := pm.exclusionCriteria }

theorem purposeOf_renderVS (pfx : Bool) (v : ValueSetNode) :
    purposeOf (renderVS pfx v) =
      (match truthyStrOpt v.purpose with
        | some p => parsePurposeField p
        | none => (⟨none, none, none, none⟩ : PurposeMeta)) := by
  unfold purposeOf
  rw [probe2_renderVS_purpose]

theorem extractMetadata_renderVS (pfx : Bool) (v : ValueSetNode) :
    extractMetadata (renderVS pfx v) = renderedMetadata v := by
  unfold extractMetadata renderedMetadata
  rw [purposeOf_renderVS, getKey_renderVS_id, getKey_renderVS_displayName,
    getKey_renderVS_version, probe2_renderVS_source, probe2_renderVS_type,
    probe2_renderVS_binding, probe2_renderVS_status, probe2_renderVS_revisionDate]

/-- C2 (amended): for payloads whose value sets appear under the
`DescribedValueSet` element name, the variant with the `ns0:` namespace prefix
on every element name and the variant without any prefix normalize to
identical `ValueSetResult` values — the normalizer probes both the prefixed
and unprefixed names at the response root, the per-value-set metadata fields,
the concept list, and the concept nodes.  (The claim's unrestricted version is
false: the `ValueSet` element-name fallback for the value-set list is probed
only in the unprefixed shape, and only the literal `ns0:` prefix is ever
probed — see the counterexample.) -/
theorem c2_prefix_equivalence_for_described_valuesets (p : VsacPayload) :
    parseVsacResponse (.ok (renderResponse true p)) =
      parseVsacResponse (.ok (renderResponse false p)) := by
  simp only [parseVsacResponse]
  rw [getValueSets_renderResponse, getValueSets_renderResponse]
  rcases p.valueSets with _ | ⟨v, rest⟩
  · rfl
  · simp only [List.map_cons]
    rw [probe2_renderVS_conceptList, probe2_renderVS_conceptList]
    cases hc : v.conceptList with
    | none =>
      simp [extractMetadata_renderVS]
    | some cs =>
      simp [extractMetadata_renderVS, conceptNodes_renderConceptList]

/-- Projection used to exhibit inequality of two normalizer results: the
string codes of the concept list. -/
def conceptCodes (r : ValueSetResult) : List (Option String) :=
  r.concepts.map (fun c =>
    match c.code with
    | .str s => some s
    | _ => none)

/-- Counterexample to C2 as stated: two pairs of payloads, each pair identical
except that one member carries a namespace prefix on every element name,
normalize differently.  First pair: the value-set list under the `ValueSet`
element name, with and without the `ns0:` prefix (the prefixed variant falls
through to the `NO_VALUESET` sentinel because only `ns0:DescribedValueSet` is
probed under the prefixed root).  Second pair: a `DescribedValueSet` payload
prefixed with `ns1:` instead of `ns0:` against its unprefixed twin (only the
literal `ns0:` prefix is probed). -/
theorem c2_counterexample :
    parseVsacResponse
        (.ok (.obj [("ns0:RetrieveMultipleValueSetsResponse",
          .obj [("ns0:ValueSet", .obj [("@_ID", .str "1.2.3")])])])) ≠
      parseVsacResponse
        (.ok (.obj [("RetrieveMultipleValueSetsResponse",
          .obj [("ValueSet", .obj [("@_ID", .str "1.2.3")])])])) ∧
    parseVsacResponse
        (.ok (.obj [("ns1:RetrieveMultipleValueSetsResponse",
          .obj [("ns1:DescribedValueSet", .obj [("@_ID", .str "1.2.3")])])])) ≠
      parseVsacResponse
        (.ok (.obj [("RetrieveMultipleValueSetsResponse",
          .obj [("DescribedValueSet", .obj [("@_ID", .str "1.2.3")])])])) := by
  constructor
  · intro h
    exact absurd (congrArg conceptCodes h) (by decide)
  · intro h
    exact absurd (congrArg conceptCodes h) (by decide)

/-! ### CQL value-set extraction (config.js)

The source scans the query with the global, case-insensitive regex
`(valueset\s")(.+)(":\s')(urn:oid:)((\d+\.)*\d+)(')`, collecting group 2 (the
name) and group 5 (the OID) of every match.  The embedding realises exactly
this regex's backtracking semantics for the fixed pattern:

  * `exec` in a loop finds matches left to right, resuming after each match;
  * `(.+)` (greedy, newline-free) is realised by taking the maximal run of
    non-line-terminator characters after the opening quote and peeling it from
    the right until the tail pattern matches — longest candidate first, which
    is the backtracking priority of a greedy group;
  * `((\d+\.)*\d+)'` matches at a position exactly when the maximal digit/dot
    run there is a full dotted-numeric word followed by a single quote (a
    proper prefix of the run is never followed by `'`, since the next
    character inside the run is a digit or dot), which the `dottedNumeric`
    acceptor decides. -/

def isDigitDot (c : Char) : Bool := c.isDigit || c == '.'

/-- Characters matched by `.` in a JavaScript regex without the `s` flag:
everything except the four line terminators. -/
def isDotChar (c : Char) : Bool :=
  !(c == '\n' || c == '\r' || c.val == 0x2028 || c.val == 0x2029)

/-- State machine compiled from the anchored OID grammar: `firstGroup` has
consumed `\d+`, `afterDot` has just consumed a dot, `laterGroup` has consumed
`\d+(\.\d+)+`. -/
inductive OidSt where
  | start
  | firstGroup
  | afterDot
  | laterGroup
  | reject
deriving DecidableEq

def oidStep : OidSt → Char → OidSt
  | .start, c => if c.isDigit then .firstGroup else .reject
  | .firstGroup, c => if c.isDigit then .firstGroup else if c == '.' then .afterDot else .reject
  | .afterDot, c => if c.isDigit then .laterGroup else .reject
  | .laterGroup, c => if c.isDigit then .laterGroup else if c == '.' then .afterDot else .reject
  | .reject, _ => .reject

def runOid (l : List Char) : OidSt := l.foldl oidStep .start

/-- The validator pattern `/^\d+(?:\.\d+)+$/` of `validateExtractedOids`
(config.js line 95): at least two dot-separated digit groups. -/
def testValidOid (s : String) : Bool := runOid s.data == .laterGroup

/-- Full-word acceptor for the extractor's OID subpattern `((\d+\.)*\d+)`:
one or more dot-separated digit groups. -/
def dottedNumeric (l : List Char) : Bool :=
  runOid l == .firstGroup || runOid l == .laterGroup

/-- `validateExtractedOids` (config.js lines 88-105): keep exactly the
elements that are strings matching the valid-OID pattern; non-string elements
are filtered out (the `typeof` guard), nothing is raised. -/
def validateExtractedOids (oids : List JValue) : List JValue :=
  oids.filter (fun v =>
    match v with
    | .str s => testValidOid s
    | _ => false)

def expectChar (c : Char) : List Char → Option (List Char)
  | x :: rest => if x == c then some rest else none
  | [] => none

def urnLit : List Char := ['u', 'r', 'n', ':', 'o', 'i', 'd', ':']

def vsLit : List Char := ['v', 'a', 'l', 'u', 'e', 's', 'e', 't']

/-- Match the tail pattern `":\s'urn:oid:((\d+\.)*\d+)'` at a position,
returning the OID capture and the rest of the input. -/
def matchTail (post : List Char) : Option (List Char × List Char) :=
  (expectChar '"' post).bind (fun l1 =>
    (expectChar ':' l1).bind (fun l2 =>
      match l2 with
      | [] => none
      | sp :: l3 =>
        if isJsSpace sp then
          (expectChar '\'' l3).bind (fun l4 =>
            (matchCI urnLit l4).bind (fun l5 =>
              if dottedNumeric (l5.takeWhile isDigitDot) then
                (expectChar '\'' (l5.dropWhile isDigitDot)).bind (fun l6 =>
                  some (l5.takeWhile isDigitDot, l6))
              else none))
        else none))

/-- Greedy search for the `(.+)` name group: `rev` is the reversed maximal
candidate; candidates are tried longest first, peeling one character at a time
into `post`. -/
def tryNameLoop : List Char → List Char → Option (List Char × List Char × List Char)
  | [], _ => none
  | c :: revRest, post =>
    match matchTail post with
    | some (oid, rest) => some ((c :: revRest).reverse, oid, rest)
    | none => tryNameLoop revRest (c :: post)

/-- Try the whole declaration pattern at the current position: the keyword
(case-insensitive), one `\s` character, the opening quote, then the greedy
name/tail search.  Returns (name, oid, rest-after-match). -/
def matchAt (s : List Char) : Option (List Char × List Char × List Char) :=
  (matchCI vsLit s).bind (fun r1 =>
    match r1 with
    | [] => none
    | sp :: r2 =>
      if isJsSpace sp then
        (expectChar '"' r2).bind (fun r3 =>
          tryNameLoop (r3.takeWhile isDotChar).reverse (r3.dropWhile isDotChar))
      else none)

theorem matchCI_length {p s r : List Char} (h : matchCI p s = some r) :
    r.length + p.length = s.length := by
  induction p generalizing s with
  | nil =>
    cases s <;> simp [matchCI] at h <;> simp [h]
  | cons pc ps ih =>
    cases s with
    | nil => simp [matchCI] at h
    | cons c cs =>
      simp only [matchCI] at h
      by_cases hc : (c.toLower == pc) = true
      · simp only [hc, if_true] at h
        have := ih h
        simp only [List.length_cons]
        omega
      · simp [hc] at h

theorem expectChar_length {c : Char} {l r : List Char} (h : expectChar c l = some r) :
    r.length + 1 = l.length := by
  cases l with
  | nil => simp [expectChar] at h
  | cons x rest =>
    simp only [expectChar] at h
    by_cases hx : (x == c) = true
    · simp only [hx, if_true, Option.some.injEq] at h
      simp [← h]
    · simp [hx] at h

theorem matchTail_length {post oid rest : List Char} (h : matchTail post = some (oid, rest)) :
    rest.length < post.length := by
  unfold matchTail at h
  cases h1 : expectChar '"' post with
  | none => rw [h1] at h; simp at h
  | some l1 =>
    rw [h1, Option.some_bind] at h
    cases h2 : expectChar ':' l1 with
    | none => rw [h2] at h; simp at h
    | some l2 =>
      rw [h2, Option.some_bind] at h
      cases l2 with
      | nil => simp at h
      | cons sp l3 =>
        by_cases hsp : isJsSpace sp = true
        · simp only [hsp, if_true] at h
          cases h3 : expectChar '\'' l3 with
          | none => rw [h3] at h; simp at h
          | some l4 =>
            rw [h3, Option.some_bind] at h
            cases h4 : matchCI urnLit l4 with
            | none => rw [h4] at h; simp at h
            | some l5 =>
              rw [h4, Option.some_bind] at h
              by_cases hdn : dottedNumeric (l5.takeWhile isDigitDot) = true
              · simp only [hdn, if_true] at h
                cases h5 : expectChar '\'' (l5.dropWhile isDigitDot) with
                | none => rw [h5] at h; simp at h
                | some l6 =>
                  rw [h5, Option.some_bind] at h
                  simp only [Option.some.injEq, Prod.mk.injEq] at h
                  have e1 := expectChar_length h1
                  have e2 := expectChar_length h2
                  have e3 := expectChar_length h3
                  have e4 := matchCI_length h4
                  have e5 := expectChar_length h5
                  have e6 : (l5.dropWhile isDigitDot).length ≤ l5.length := by
                    have e := congrArg List.length
                      (List.takeWhile_append_dropWhile (p := isDigitDot) (l := l5))
                    simp only [List.length_append] at e
                    omega
                  have e7 : rest = l6 := h.2.symm
                  subst e7
                  simp only [urnLit, List.length_cons] at e2 e4 ⊢
                  simp at e4
                  omega
              · simp [hdn] at h
        · simp [hsp] at h

theorem tryNameLoop_length {rev post n oid rest : List Char}
    (h : tryNameLoop rev post = some (n, oid, rest)) :
    rest.length < rev.length + post.length := by
  induction rev generalizing post with
  | nil => simp [tryNameLoop] at h
  | cons c revRest ih =>
    simp only [tryNameLoop] at h
    cases hmt : matchTail post with
    | some pr =>
      rw [hmt] at h
      simp only [Option.some.injEq, Prod.mk.injEq] at h
      have e7 : rest = pr.2 := by
        obtain ⟨-, -, h3⟩ := h
        exact h3.symm
      subst e7
      have := @matchTail_length post pr.1 pr.2 (by rw [hmt])
      simp only [List.length_cons]
      omega
    | none =>
      rw [hmt] at h
      have := ih h
      simp only [List.length_cons] at this ⊢
      omega

theorem matchAt_length {s n oid rest : List Char} (h : matchAt s = some (n, oid, rest)) :
    rest.length < s.length := by
  unfold matchAt at h
  cases h1 : matchCI vsLit s with
  | none => rw [h1] at h; simp at h
  | some r1 =>
    rw [h1, Option.some_bind] at h
    cases r1 with
    | nil => simp at h
    | cons sp r2 =>
      by_cases hsp : isJsSpace sp = true
      · simp only [hsp, if_true] at h
        cases h2 : expectChar '"' r2 with
        | none => rw [h2] at h; simp at h
        | some r3 =>
          rw [h2, Option.some_bind] at h
          have e0 := matchCI_length h1
          have e2 := expectChar_length h2
          have e3 := tryNameLoop_length h
          have e4 : (r3.takeWhile isDotChar).length + (r3.dropWhile isDotChar).length
              = r3.length := by
            rw [← List.length_append, List.takeWhile_append_dropWhile]
          have e3' : rest.length <
              (r3.takeWhile isDotChar).length + (r3.dropWhile isDotChar).length := by
            simpa [List.length_reverse] using e3
          simp only [vsLit, List.length_cons] at e0
          simp at e0
          omega
      · simp [hsp] at h

/-- The `exec` loop over the input: find the leftmost match at or after the
current position, record its captures, resume after the match.  Fuel-indexed
for structural recursion; one unit of fuel is spent per character position or
per match, and a match always consumes at least one character, so fuel equal
to the input length is always sufficient (`extractMatches`). -/
def extractGo : Nat → List Char → List (String × String)
  | 0, _ => []
  | _ + 1, [] => []
  | f + 1, c :: rest =>
    match matchAt (c :: rest) with
    | some (n, o, after) => (⟨n⟩, ⟨o⟩) :: extractGo f after
    | none => extractGo f rest

/-- All (name, oid) capture pairs of the regex over the input, in match
order. -/
def extractMatches (l : List Char) : List (String × String) := extractGo l.length l

/-- `Set.prototype.add` on a list kept in insertion order. -/
def addUnique (acc : List String) (x : String) : List String :=
  if x ∈ acc then acc else acc ++ [x]

/-- `Array.from(new Set(...))`: deduplicate keeping first-seen order. -/
def dedupFirstSeen (l : List String) : List String := l.foldl addUnique []

/-- The result shape of `extractValueSetIdentifiersFromCQL`. -/
structure ExtractResult where
  oids : List String
  valuesets : List (String × String)
deriving DecidableEq

/-- `extractValueSetIdentifiersFromCQL` (config.js lines 28-81): falsy or
non-string input yields the empty result; otherwise every regex match adds
its OID to a duplicate-eliminating set and pushes the trimmed (name, oid)
pair, and both collections are returned. -/
def extractValueSetIdentifiersFromCQL (cqlQuery : String) : ExtractResult :=
  if cqlQuery = "" then ⟨[], []⟩
  else
    let ms := extractMatches cqlQuery.data
    let folded := ms.foldl
      (fun (st : List String × List (String × String)) m =>
        if m.1 ≠ "" ∧ m.2 ≠ "" then
          (addUnique st.1 m.2, st.2 ++ [(jsTrim m.1, jsTrim m.2)])
        else st)
      ([], [])
    ⟨folded.1, folded.2⟩

example :
    extractValueSetIdentifiersFromCQL "valueset \"Diabetes\": 'urn:oid:2.16.840.1.113883.3.464.1003.103.12.1001'" =
      ⟨["2.16.840.1.113883.3.464.1003.103.12.1001"],
       [("Diabetes", "2.16.840.1.113883.3.464.1003.103.12.1001")]⟩ := by decide

example :
    extractValueSetIdentifiersFromCQL "valueset \"A\": \"urn:oid:1.2.3\"" = ⟨[], []⟩ := by decide

example :
    extractValueSetIdentifiersFromCQL
      "valueset \"A\": 'urn:oid:1.2' valueset \"B\": 'urn:oid:3.4'" =
      ⟨["3.4"], [("A\": 'urn:oid:1.2' valueset \"B", "3.4")]⟩ := by decide

example :
    extractValueSetIdentifiersFromCQL
      "valueset \"A\": 'urn:oid:1.2'\nvalueset \"B\": 'urn:oid:3.4'" =
      ⟨["1.2", "3.4"], [("A", "1.2"), ("B", "3.4")]⟩ := by decide

example : testValidOid "1.2.3" = true ∧ testValidOid "42" = false ∧
    testValidOid "a.b.c" = false ∧ dottedNumeric "42".data = true := by decide

theorem foldl_oidStep_reject (l : List Char) : l.foldl oidStep .reject = .reject := by
  induction l with
  | nil => rfl
  | cons c rest ih => simpa [oidStep] using ih

theorem oidStep_reject_of_not {c : Char} (st : OidSt) (h : isDigitDot c = false) :
    oidStep st c = .reject := by
  simp only [isDigitDot, Bool.or_eq_false_iff] at h
  cases st <;> simp [oidStep, h.1, h.2]

theorem runOid_eq_reject_of_mem {l : List Char} {c : Char} (hc : c ∈ l)
    (h : isDigitDot c = false) : runOid l = .reject := by
  obtain ⟨l1, l2, rfl⟩ := List.append_of_mem hc
  unfold runOid
  rw [List.foldl_append, List.foldl_cons, oidStep_reject_of_not _ h, foldl_oidStep_reject]

theorem dotted_chars {l : List Char} (h : dottedNumeric l = true) :
    ∀ c ∈ l, isDigitDot c = true := by
  intro c hc
  cases hcd : isDigitDot c with
  | true => rfl
  | false =>
    rw [dottedNumeric, runOid_eq_reject_of_mem hc hcd] at h
    simp at h

theorem dottedNumeric_ne_nil {l : List Char} (h : dottedNumeric l = true) : l ≠ [] := by
  intro hnil
  subst hnil
  simp [dottedNumeric, runOid] at h

theorem takeWhile_append_all {α : Type} {p : α → Bool} :
    ∀ {l1 l2 : List α}, (∀ c ∈ l1, p c = true) →
      (l1 ++ l2).takeWhile p = l1 ++ l2.takeWhile p := by
  intro l1
  induction l1 with
  | nil => intro l2 _; rfl
  | cons c l1 ih =>
    intro l2 h
    have hc : p c = true := h c (List.mem_cons_self _ _)
    simp only [List.cons_append, List.takeWhile_cons, hc, if_true]
    rw [ih (fun x hx => h x (List.mem_cons_of_mem _ hx))]

theorem dropWhile_append_all {α : Type} {p : α → Bool} :
    ∀ {l1 l2 : List α}, (∀ c ∈ l1, p c = true) →
      (l1 ++ l2).dropWhile p = l2.dropWhile p := by
  intro l1
  induction l1 with
  | nil => intro l2 _; rfl
  | cons c l1 ih =>
    intro l2 h
    have hc : p c = true := h c (List.mem_cons_self _ _)
    simp only [List.cons_append, List.dropWhile_cons, hc, if_true]
    exact ih (fun x hx => h x (List.mem_cons_of_mem _ hx))

/-- The separator-and-reference block after the name capture of one rendered
declaration: `": 'urn:oid:OID'`. -/
def sepOid (o : String) : List Char :=
  '"' :: ':' :: ' ' :: '\'' :: (urnLit ++ (o.data ++ ['\'']))

/-- One declaration `valueset "NAME": 'urn:oid:OID'` as written by the
grammar the spec describes. -/
def renderDecl (n o : String) : List Char :=
  vsLit ++ ' ' :: '"' :: (n.data ++ sepOid o)

/-- Declarations joined on separate lines. -/
def renderDecls : List (String × String) → List Char
  | [] => []
  | [d] => renderDecl d.1 d.2
  | d :: ds => renderDecl d.1 d.2 ++ '\n' :: renderDecls ds

theorem matchCI_self (pat : List Char) (hp : ∀ c ∈ pat, c.toLower = c) :
    ∀ rest, matchCI pat (pat ++ rest) = some rest := by
  induction pat with
  | nil => intro rest; rfl
  | cons c ps ih =>
    intro rest
    have hc : c.toLower = c := hp c (List.mem_cons_self _ _)
    simp only [List.cons_append, matchCI, hc, beq_self_eq_true, if_true]
    exact ih (fun x hx => hp x (List.mem_cons_of_mem _ hx)) rest

theorem matchTail_cons_ne {c : Char} (l : List Char) (h : ¬ c = '"') :
    matchTail (c :: l) = none := by
  simp [matchTail, expectChar, h]

theorem matchTail_sepOid (o : String) (tail : List Char)
    (ho : dottedNumeric o.data = true) :
    matchTail (sepOid o ++ tail) = some (o.data, tail) := by
  have hoc : ∀ c ∈ o.data, isDigitDot c = true := dotted_chars ho
  have htw : (o.data ++ '\'' :: tail).takeWhile isDigitDot = o.data := by
    rw [takeWhile_append_all hoc]
    simp [List.takeWhile_cons, isDigitDot]
  have hdw : (o.data ++ '\'' :: tail).dropWhile isDigitDot = '\'' :: tail := by
    rw [dropWhile_append_all hoc]
    simp [List.dropWhile_cons, isDigitDot]
  simp only [sepOid, List.cons_append, List.append_assoc]
  simp only [matchTail, expectChar, beq_self_eq_true, if_true, Option.some_bind]
  have hsp : isJsSpace ' ' = true := by decide
  simp only [hsp, if_true]
  rw [matchCI_self urnLit (by decide)]
  simp only [Option.some_bind, List.singleton_append, List.nil_append, htw, hdw, ho, if_true]
  simp [expectChar]

/-- Peeling a whole block through the greedy name search: as long as every
intermediate tail position fails the tail pattern, the candidates shrink past
the block.  `S.drop j ++ post` for `1 ≤ j ≤ S.length` are exactly the tail
positions tried while the candidate still reaches into `S`. -/
theorem tryNameLoop_block (S : List Char) :
    ∀ rev post, (∀ j, 1 ≤ j → j ≤ S.length → matchTail (S.drop j ++ post) = none) →
      tryNameLoop (S.reverse ++ rev) post = tryNameLoop rev (S ++ post) := by
  induction S using List.reverseRecOn with
  | nil => intro rev post _; rfl
  | append_singleton S' b ih =>
    intro rev post h
    have h0 : matchTail post = none := by
      have := h (S'.length + 1) (by omega) (by simp)
      simpa using this
    rw [List.reverse_append, List.reverse_singleton]
    simp only [List.singleton_append, List.cons_append, List.nil_append, List.append_eq,
      tryNameLoop, h0]
    have step := ih rev (b :: post) ?cond
    case cond =>
      intro j hj1 hj2
      have hdrop : (S' ++ [b]).drop j = S'.drop j ++ [b] :=
        List.drop_append_of_le_length hj2
      have := h j hj1 (by simp; omega)
      rwa [hdrop, List.append_assoc, List.singleton_append] at this
    rw [step, List.append_assoc, List.singleton_append]

theorem isDotChar_of_digitDot {c : Char} (h : isDigitDot c = true) : isDotChar c = true := by
  cases hdc : isDotChar c with
  | true => rfl
  | false =>
    exfalso
    simp only [isDotChar, Bool.not_eq_false', Bool.or_eq_true, beq_iff_eq] at hdc
    rcases hdc with ((rfl | rfl) | hv) | hv
    · exact absurd h (by decide)
    · exact absurd h (by decide)
    · have hc : c = '\u2028' := Char.ext (by rw [hv]; rfl)
      subst hc
      exact absurd h (by decide)
    · have hc : c = '\u2029' := Char.ext (by rw [hv]; rfl)
      subst hc
      exact absurd h (by decide)

theorem matchTail_nil : matchTail [] = none := rfl

theorem matchTail_drop_none {L : List Char} (hL : ∀ c ∈ L, ¬ c = '"') {tail : List Char}
    (htail : matchTail tail = none) (k : Nat) : matchTail (L.drop k ++ tail) = none := by
  cases hd : L.drop k with
  | nil => simpa using htail
  | cons c t =>
    have hc : c ∈ L := by
      have hmem : c ∈ L.drop k := by rw [hd]; exact List.mem_cons_self _ _
      exact List.mem_of_mem_drop hmem
    exact matchTail_cons_ne _ (hL c hc)

theorem sepOid_chars {o : String} (ho : dottedNumeric o.data = true) :
    ∀ c ∈ sepOid o, isDotChar c = true := by
  intro c hc
  rw [sepOid] at hc
  rcases List.mem_cons.mp hc with rfl | hc
  · decide
  rcases List.mem_cons.mp hc with rfl | hc
  · decide
  rcases List.mem_cons.mp hc with rfl | hc
  · decide
  rcases List.mem_cons.mp hc with rfl | hc
  · decide
  rcases List.mem_append.mp hc with h | h
  · exact (by decide : ∀ x ∈ urnLit, isDotChar x = true) c h
  rcases List.mem_append.mp h with h2 | h2
  · exact isDotChar_of_digitDot (dotted_chars ho c h2)
  · exact (by decide : ∀ x ∈ ['\''], isDotChar x = true) c h2

theorem sepOid_tail_chars {o : String} (ho : dottedNumeric o.data = true) :
    ∀ c ∈ (':' :: ' ' :: '\'' :: (urnLit ++ (o.data ++ ['\'']))), ¬ c = '"' := by
  intro c hc
  rcases List.mem_cons.mp hc with rfl | hc
  · decide
  rcases List.mem_cons.mp hc with rfl | hc
  · decide
  rcases List.mem_cons.mp hc with rfl | hc
  · decide
  rcases List.mem_append.mp hc with h | h
  · exact (by decide : ∀ x ∈ urnLit, ¬ x = '"') c h
  rcases List.mem_append.mp h with h2 | h2
  · intro heq
    subst heq
    exact absurd (dotted_chars ho _ h2) (by decide)
  · exact (by decide : ∀ x ∈ ['\''], ¬ x = '"') c h2

theorem tryNameLoop_cons_some {c : Char} {revRest post oid rest : List Char}
    (h : matchTail post = some (oid, rest)) :
    tryNameLoop (c :: revRest) post = some ((c :: revRest).reverse, oid, rest) := by
  unfold tryNameLoop
  rw [h]

theorem matchAt_renderDecl (n o : String) (tail : List Char)
    (hn : n.data ≠ [])
    (hnc : ∀ c ∈ n.data, isDotChar c = true)
    (ho : dottedNumeric o.data = true)
    (htail : tail = [] ∨ ∃ t, tail = '\n' :: t) :
    matchAt (renderDecl n o ++ tail) = some (n.data, o.data, tail) := by
  have hsep : ∀ c ∈ sepOid o, isDotChar c = true := sepOid_chars ho
  have htailNone : matchTail tail = none := by
    rcases htail with rfl | ⟨t, rfl⟩
    · exact matchTail_nil
    · exact matchTail_cons_ne _ (by decide)
  have htailTW : tail.takeWhile isDotChar = [] := by
    rcases htail with rfl | ⟨t, rfl⟩
    · rfl
    · rw [List.takeWhile_cons]
      simp [(by decide : isDotChar '\n' = false)]
  have htailDW : tail.dropWhile isDotChar = tail := by
    rcases htail with rfl | ⟨t, rfl⟩
    · rfl
    · rw [List.dropWhile_cons]
      simp [(by decide : isDotChar '\n' = false)]
  have htw : (n.data ++ (sepOid o ++ tail)).takeWhile isDotChar = n.data ++ sepOid o := by
    rw [takeWhile_append_all hnc, takeWhile_append_all hsep, htailTW, List.append_nil]
  have hdw : (n.data ++ (sepOid o ++ tail)).dropWhile isDotChar = tail := by
    rw [dropWhile_append_all hnc, dropWhile_append_all hsep, htailDW]
  have hcond : ∀ j, 1 ≤ j → j ≤ (sepOid o).length →
      matchTail ((sepOid o).drop j ++ tail) = none := by
    intro j hj1 _
    obtain ⟨k, rfl⟩ : ∃ k, j = k + 1 := ⟨j - 1, by omega⟩
    rw [sepOid, List.drop_succ_cons]
    exact matchTail_drop_none (sepOid_tail_chars ho) htailNone k
  unfold matchAt
  have hshape : renderDecl n o ++ tail = vsLit ++ (' ' :: '"' :: (n.data ++ (sepOid o ++ tail))) := by
    simp [renderDecl, List.append_assoc]
  rw [hshape, matchCI_self vsLit (by decide), Option.some_bind]
  have hsp : isJsSpace ' ' = true := by decide
  simp only [hsp, if_true, expectChar, beq_self_eq_true, Option.some_bind]
  rw [htw, hdw, List.reverse_append, tryNameLoop_block (sepOid o) _ tail hcond]
  cases hrev : n.data.reverse with
  | nil => exact absurd (List.reverse_eq_nil_iff.mp hrev) hn
  | cons c revRest =>
    rw [tryNameLoop_cons_some (matchTail_sepOid o tail ho), ← hrev,
      List.reverse_reverse]

theorem matchAt_newline (l : List Char) : matchAt ('\n' :: l) = none := rfl

theorem extractGo_nil (f : Nat) : extractGo f [] = [] := by
  cases f <;> rfl

theorem extractGo_succ_cons (f : Nat) (c : Char) (rest : List Char) :
    extractGo (f + 1) (c :: rest) =
      match matchAt (c :: rest) with
      | some (n, o, after) => ((⟨n⟩ : String), (⟨o⟩ : String)) :: extractGo f after
      | none => extractGo f rest := rfl

theorem extractGo_fuel : ∀ f g (l : List Char), l.length ≤ f → l.length ≤ g →
    extractGo f l = extractGo g l := by
  intro f
  induction f with
  | zero =>
    intro g l hf _
    have hl : l = [] := List.length_eq_zero.mp (Nat.le_zero.mp hf)
    subst hl
    rw [extractGo_nil, extractGo_nil]
  | succ f ih =>
    intro g l hf hg
    cases l with
    | nil => rw [extractGo_nil, extractGo_nil]
    | cons c rest =>
      cases g with
      | zero => simp at hg
      | succ g' =>
        rw [extractGo_succ_cons, extractGo_succ_cons]
        cases hma : matchAt (c :: rest) with
        | some triple =>
          obtain ⟨n2, o2, after⟩ := triple
          have hlen := matchAt_length hma
          simp only [List.length_cons] at hf hg hlen
          show ((⟨n2⟩ : String), (⟨o2⟩ : String)) :: extractGo f after =
            ((⟨n2⟩ : String), (⟨o2⟩ : String)) :: extractGo g' after
          rw [ih g' after (by omega) (by omega)]
        | none =>
          simp only [List.length_cons] at hf hg
          exact ih g' rest (by omega) (by omega)

theorem renderDecl_length (n o : String) :
    (renderDecl n o).length = n.data.length + o.data.length + 23 := by
  simp [renderDecl, sepOid, vsLit, urnLit, List.length_append]
  omega

theorem extractGo_decl_step (d : String × String) (tail : List Char) (f : Nat)
    (hd1 : d.1.data ≠ []) (hd2 : ∀ c ∈ d.1.data, isDotChar c = true)
    (hd3 : dottedNumeric d.2.data = true)
    (htail : tail = [] ∨ ∃ t, tail = '\n' :: t) :
    extractGo (f + 1) (renderDecl d.1 d.2 ++ tail) = d :: extractGo f tail := by
  have hE : extractGo (f + 1) (renderDecl d.1 d.2 ++ tail) =
      match matchAt (renderDecl d.1 d.2 ++ tail) with
      | some (n, o, after) => ((⟨n⟩ : String), (⟨o⟩ : String)) :: extractGo f after
      | none => extractGo f (List.tail (renderDecl d.1 d.2 ++ tail)) := rfl
  rw [hE, matchAt_renderDecl d.1 d.2 tail hd1 hd2 hd3 htail]

theorem extractGo_renderDecls : ∀ (ds : List (String × String)) (f : Nat),
    (renderDecls ds).length ≤ f →
    (∀ d ∈ ds, d.1.data ≠ [] ∧ (∀ c ∈ d.1.data, isDotChar c = true) ∧
      dottedNumeric d.2.data = true) →
    extractGo f (renderDecls ds) = ds := by
  intro ds
  induction ds with
  | nil =>
    intro f _ _
    rw [show renderDecls [] = [] from rfl, extractGo_nil]
  | cons d ds' ih =>
    intro f hf h
    obtain ⟨hd1, hd2, hd3⟩ := h d (List.mem_cons_self _ _)
    have hrest := fun x hx => h x (List.mem_cons_of_mem _ hx)
    cases ds' with
    | nil =>
      have e : renderDecls [d] = renderDecl d.1 d.2 ++ [] := by
        simp [renderDecls]
      rw [e] at hf ⊢
      have hlen : (renderDecl d.1 d.2 ++ []).length = d.1.data.length + d.2.data.length + 23 := by
        rw [List.append_nil, renderDecl_length]
      obtain ⟨f', rfl⟩ : ∃ f', f = f' + 1 := ⟨f - 1, by omega⟩
      rw [extractGo_decl_step d [] f' hd1 hd2 hd3 (Or.inl rfl), extractGo_nil]
    | cons d2 ds'' =>
      have e : renderDecls (d :: d2 :: ds'') =
          renderDecl d.1 d.2 ++ ('\n' :: renderDecls (d2 :: ds'')) := rfl
      rw [e] at hf ⊢
      have hlen : (renderDecl d.1 d.2 ++ ('\n' :: renderDecls (d2 :: ds''))).length =
          d.1.data.length + d.2.data.length + 23 + (1 + (renderDecls (d2 :: ds'')).length) := by
        simp [List.length_append, renderDecl_length]
        omega
      obtain ⟨f', rfl⟩ : ∃ f', f = f' + 1 := ⟨f - 1, by omega⟩
      rw [extractGo_decl_step d _ f' hd1 hd2 hd3 (Or.inr ⟨_, rfl⟩)]
      obtain ⟨f'', rfl⟩ : ∃ f'', f' = f'' + 1 := ⟨f' - 1, by omega⟩
      rw [extractGo_succ_cons]
      rw [matchAt_newline]
      show d :: extractGo f'' (renderDecls (d2 :: ds'')) = d :: d2 :: ds''
      rw [ih f'' (by omega) hrest]

theorem extract_foldl (ms : List (String × String)) :
    ∀ (acc1 : List String) (acc2 : List (String × String)),
      (∀ m ∈ ms, m.1 ≠ "" ∧ m.2 ≠ "") →
      ms.foldl
        (fun (st : List String × List (String × String)) m =>
          if m.1 ≠ "" ∧ m.2 ≠ "" then
            (addUnique st.1 m.2, st.2 ++ [(jsTrim m.1, jsTrim m.2)])
          else st)
        (acc1, acc2) =
      ((ms.map (fun m => m.2)).foldl addUnique acc1,
       acc2 ++ ms.map (fun m => (jsTrim m.1, jsTrim m.2))) := by
  induction ms with
  | nil =>
    intro acc1 acc2 _
    simp
  | cons m ms ih =>
    intro acc1 acc2 h
    obtain ⟨h1, h2⟩ := h m (List.mem_cons_self _ _)
    simp only [List.foldl_cons, List.map_cons]
    rw [if_pos ⟨h1, h2⟩, ih _ _ (fun x hx => h x (List.mem_cons_of_mem _ hx))]
    simp

theorem string_ne_empty_of_data {s : String} (h : s.data ≠ []) : s ≠ "" := by
  intro heq
  rw [heq] at h
  exact h rfl

theorem extract_renderDecls (ds : List (String × String))
    (h : ∀ d ∈ ds, d.1.data ≠ [] ∧ (∀ c ∈ d.1.data, isDotChar c = true) ∧
      dottedNumeric d.2.data = true) :
    extractValueSetIdentifiersFromCQL ⟨renderDecls ds⟩ =
      ⟨dedupFirstSeen (ds.map (fun d => d.2)), ds.map (fun d => (jsTrim d.1, jsTrim d.2))⟩ := by
  cases ds with
  | nil => rfl
  | cons d ds' =>
    have hne : (⟨renderDecls (d :: ds')⟩ : String) ≠ "" := by
      apply string_ne_empty_of_data
      show renderDecls (d :: ds') ≠ []
      cases ds' <;> simp [renderDecls, renderDecl, vsLit]
    have hm : extractMatches (String.data ⟨renderDecls (d :: ds')⟩) = d :: ds' :=
      extractGo_renderDecls (d :: ds') _ le_rfl h
    have hms : ∀ m ∈ d :: ds', m.1 ≠ "" ∧ m.2 ≠ "" := by
      intro m hm2
      obtain ⟨h1, _, h3⟩ := h m hm2
      exact ⟨string_ne_empty_of_data h1, string_ne_empty_of_data (dottedNumeric_ne_nil h3)⟩
    simp only [extractValueSetIdentifiersFromCQL, if_neg hne, hm]
    rw [extract_foldl (d :: ds') [] [] hms]
    simp [dedupFirstSeen]

/-- C4 (amended): for declarations placed on separate lines — names nonempty
and free of line terminators, OIDs dotted-numeric — the extractor returns one
`valuesets` entry per declaration in declaration order (names and OIDs
trimmed), and `oids` deduplicated by value in first-seen order, so
`valuesets.length = N` and `oids.length = K`; and a double-quoted OID
reference never matches.  (The claim's unrestricted per-declaration count is
false when two declarations share one line, because the greedy newline-free
name group `(.+)` swallows the first declaration — see the counterexample.) -/
theorem c4_extraction_on_separate_lines (ds : List (String × String))
    (h : ∀ d ∈ ds, d.1.data ≠ [] ∧ (∀ c ∈ d.1.data, isDotChar c = true) ∧
      dottedNumeric d.2.data = true) :
    extractValueSetIdentifiersFromCQL ⟨renderDecls ds⟩ =
      ⟨dedupFirstSeen (ds.map (fun d => d.2)), ds.map (fun d => (jsTrim d.1, jsTrim d.2))⟩ ∧
    (extractValueSetIdentifiersFromCQL ⟨renderDecls ds⟩).valuesets.length = ds.length ∧
    extractValueSetIdentifiersFromCQL "valueset \"A\": \"urn:oid:1.2.3\"" = ⟨[], []⟩ := by
  refine ⟨extract_renderDecls ds h, ?_, by decide⟩
  rw [extract_renderDecls ds h]
  simp

/-- Counterexample to C4 as stated: this text contains two well-formed
single-quoted declarations (N = 2, K = 2), yet the extractor returns a single
`valuesets` entry whose name greedily spans both declarations and only the
second OID, because `.` in the name group matches everything on the line. -/
theorem c4_counterexample :
    (extractValueSetIdentifiersFromCQL
        "valueset \"A\": 'urn:oid:1.2' valueset \"B\": 'urn:oid:3.4'").valuesets.length = 1 ∧
    (extractValueSetIdentifiersFromCQL
        "valueset \"A\": 'urn:oid:1.2' valueset \"B\": 'urn:oid:3.4'").oids = ["3.4"] := by
  constructor
  · decide
  · decide

/-- Witness for `c4_extraction_on_separate_lines`: two declarations on
separate lines sharing one OID give N = 2 entries and K = 1 deduplicated
OID. -/
theorem c4_witness :
    extractValueSetIdentifiersFromCQL
        ⟨renderDecls [("Diabetes", "2.16.840.1.113883.3.464.1003.103.12.1001"),
                      ("Other", "2.16.840.1.113883.3.464.1003.103.12.1001")]⟩ =
      ⟨["2.16.840.1.113883.3.464.1003.103.12.1001"],
       [("Diabetes", "2.16.840.1.113883.3.464.1003.103.12.1001"),
        ("Other", "2.16.840.1.113883.3.464.1003.103.12.1001")]⟩ := by
  have h := (c4_extraction_on_separate_lines
    [("Diabetes", "2.16.840.1.113883.3.464.1003.103.12.1001"),
     ("Other", "2.16.840.1.113883.3.464.1003.103.12.1001")] (by decide)).1
  rw [h]
  decide

/-- C10: the extractor's OID grammar strictly contains the validator's: a
bare integer is extracted (`oids = ["42"]`) but rejected by the validator,
and everything the validator accepts the extractor's subpattern accepts. -/
theorem c10_extractor_validator_disagree :
    extractValueSetIdentifiersFromCQL "valueset \"A\": 'urn:oid:42'" =
      ⟨["42"], [("A", "42")]⟩ ∧
    validateExtractedOids [.str "42"] = [] ∧
    testValidOid "42" = false ∧
    dottedNumeric "42".data = true ∧
    (∀ s : String, testValidOid s = true → dottedNumeric s.data = true) := by
  refine ⟨by decide, rfl, by decide, by decide, ?_⟩
  intro s hs
  rw [testValidOid, beq_iff_eq] at hs
  rw [dottedNumeric, hs]
  decide

/-- Witness for the containment direction of
`c10_extractor_validator_disagree` at a concrete validator-accepted OID. -/
theorem c10_witness : dottedNumeric "1.2".data = true :=
  c10_extractor_validator_disagree.2.2.2.2 "1.2" (by decide)

/-- Dot-separated groups joined back into a word. -/
def joinDots : List (List Char) → List Char
  | [] => []
  | [g] => g
  | g :: gs => g ++ '.' :: joinDots gs

theorem foldl_digits_keep {l : List Char} (h : ∀ c ∈ l, c.isDigit = true) {st : OidSt}
    (hst : st = .firstGroup ∨ st = .laterGroup) : l.foldl oidStep st = st := by
  induction l generalizing st with
  | nil => rfl
  | cons c rest ih =>
    have hc : c.isDigit = true := h c (List.mem_cons_self _ _)
    have hstep : oidStep st c = st := by
      rcases hst with rfl | rfl <;> simp [oidStep, hc]
    rw [List.foldl_cons, hstep]
    exact ih (fun x hx => h x (List.mem_cons_of_mem _ hx)) hst

theorem foldl_group_from_afterDot {g : List Char} (hne : g ≠ [])
    (h : ∀ c ∈ g, c.isDigit = true) : g.foldl oidStep .afterDot = .laterGroup := by
  cases g with
  | nil => exact absurd rfl hne
  | cons c rest =>
    have hc : c.isDigit = true := h c (List.mem_cons_self _ _)
    rw [List.foldl_cons, show oidStep .afterDot c = .laterGroup by simp [oidStep, hc]]
    exact foldl_digits_keep (fun x hx => h x (List.mem_cons_of_mem _ hx)) (Or.inr rfl)

theorem joinDots_from_afterDot : ∀ gs : List (List Char),
    (∀ g ∈ gs, g ≠ [] ∧ ∀ c ∈ g, c.isDigit = true) → gs ≠ [] →
    (joinDots gs).foldl oidStep .afterDot = .laterGroup := by
  intro gs
  induction gs with
  | nil => intro _ hne; exact absurd rfl hne
  | cons g gs' ih =>
    intro h _
    obtain ⟨hg1, hg2⟩ := h g (List.mem_cons_self _ _)
    cases gs' with
    | nil =>
      rw [show joinDots [g] = g from rfl]
      exact foldl_group_from_afterDot hg1 hg2
    | cons g2 gs'' =>
      rw [show joinDots (g :: g2 :: gs'') = g ++ '.' :: joinDots (g2 :: gs'') from rfl,
        List.foldl_append, foldl_group_from_afterDot hg1 hg2, List.foldl_cons,
        show oidStep .laterGroup '.' = .afterDot by decide]
      exact ih (fun x hx => h x (List.mem_cons_of_mem _ hx)) (by simp)

/-- States reachable without consuming a dot. -/
theorem foldl_no_dot {l : List Char} (h : '.' ∉ l) {st : OidSt}
    (hst : st = .start ∨ st = .firstGroup ∨ st = .reject) :
    l.foldl oidStep st = .start ∨ l.foldl oidStep st = .firstGroup ∨
      l.foldl oidStep st = .reject := by
  induction l generalizing st with
  | nil => exact hst
  | cons c rest ih =>
    have hc : ¬ c = '.' := fun heq => h (heq ▸ List.mem_cons_self _ _)
    have hrest : '.' ∉ rest := fun hm => h (List.mem_cons_of_mem _ hm)
    have hstep : oidStep st c = .start ∨ oidStep st c = .firstGroup ∨
        oidStep st c = .reject := by
      rcases hst with rfl | rfl | rfl
      · cases hd : c.isDigit <;> simp [oidStep, hd]
      · cases hd : c.isDigit <;> simp [oidStep, hd, hc]
      · simp [oidStep]
    rw [List.foldl_cons]
    exact ih hrest hstep

/-- C5: `validateExtractedOids` keeps exactly the string elements matching the
anchored pattern `^\d+(\.\d+)+$` and drops every non-string element, never
raising; the pattern requires at least one dot (a bare integer is invalid, an
all-digit string is always rejected), accepts every word made of two or more
dot-separated digit groups, and the spec's example evaluates as stated; empty
input yields the empty list. -/
theorem c5_validator_exact_subset (L : List JValue) :
    validateExtractedOids L =
      L.filter (fun v => match v with | .str s => testValidOid s | _ => false) ∧
    validateExtractedOids [.str "1.2.3", .str "42", .str "a.b.c"] = [.str "1.2.3"] ∧
    (∀ s : String, (∀ c ∈ s.data, c.isDigit = true) → testValidOid s = false) ∧
    (∀ s : String, testValidOid s = true → '.' ∈ s.data) ∧
    (∀ g gs, (∀ x ∈ g :: gs, x ≠ ([] : List Char) ∧ ∀ c ∈ x, c.isDigit = true) →
      gs ≠ [] → testValidOid ⟨joinDots (g :: gs)⟩ = true) ∧
    validateExtractedOids [] = [] := by
  refine ⟨rfl, rfl, ?_, ?_, ?_, rfl⟩
  · intro s h
    rw [testValidOid, runOid]
    cases hd : s.data with
    | nil => decide
    | cons c rest =>
      rw [hd] at h
      have hc : c.isDigit = true := h c (List.mem_cons_self _ _)
      rw [List.foldl_cons, show oidStep .start c = .firstGroup by simp [oidStep, hc],
        foldl_digits_keep (fun x hx => h x (List.mem_cons_of_mem _ hx)) (Or.inl rfl)]
      decide
  · intro s hs
    by_contra hdot
    rcases foldl_no_dot hdot (Or.inl rfl) with h1 | h1 | h1 <;>
      rw [testValidOid, runOid] at hs <;> rw [h1] at hs <;> simp at hs
  · intro g gs h hne
    obtain ⟨hg1, hg2⟩ := h g (List.mem_cons_self _ _)
    have hdata : (⟨joinDots (g :: gs)⟩ : String).data = joinDots (g :: gs) := rfl
    rw [testValidOid, runOid, hdata]
    cases gs with
    | nil => exact absurd rfl hne
    | cons g2 gs' =>
      rw [show joinDots (g :: g2 :: gs') = g ++ '.' :: joinDots (g2 :: gs') from rfl,
        List.foldl_append]
      have hgrun : g.foldl oidStep .start = .firstGroup := by
        cases g with
        | nil => exact absurd rfl hg1
        | cons c rest =>
          have hc : c.isDigit = true := hg2 c (List.mem_cons_self _ _)
          rw [List.foldl_cons, show oidStep .start c = .firstGroup by simp [oidStep, hc]]
          exact foldl_digits_keep (fun x hx => hg2 x (List.mem_cons_of_mem _ hx)) (Or.inl rfl)
      rw [hgrun, List.foldl_cons, show oidStep .firstGroup '.' = .afterDot by decide,
        joinDots_from_afterDot (g2 :: gs') (fun x hx => h x (List.mem_cons_of_mem _ hx)) (by simp)]
      decide

/-- Witness for the conditional parts of `c5_validator_exact_subset` at
concrete inputs: an all-digit string is rejected, an accepted OID contains a
dot, and two joined digit groups are accepted. -/
theorem c5_witness :
    testValidOid "12345" = false ∧ '.' ∈ ("1.2" : String).data ∧
      testValidOid ⟨joinDots [['1'], ['2']]⟩ = true :=
  ⟨(c5_validator_exact_subset []).2.2.1 "12345" (by decide),
   (c5_validator_exact_subset []).2.2.2.1 "1.2" (by decide),
   (c5_validator_exact_subset []).2.2.2.2.1 ['1'] [['2']] (by decide) (by simp)⟩

/-! ### VSAC retrieval client, error handler, cache and batch orchestration
(vsacService.js, vsacErrorHandler.js)

Network transport is modelled by a `TransportOutcome` oracle: `.ok body` is a
successfully transported response whose payload parses to `body`, `.fail raw`
is an axios-style transport failure.  The in-memory `Map` cache is explicit
state (an insertion-ordered association list); thrown `VSACError`s are
`Except.error` results. -/

/-- The `error.response` component of an axios error: HTTP status and body. -/
structure RespInfo where
  status : Nat
  data : Option String

/-- An axios-style error value as consumed by `handleVsacError`. -/
structure RawError where
  response : Option RespInfo
  code : Option String
  message : String

/-- The `VSACError` class (vsacErrorHandler.js lines 3-10) with the
`guidance` field `retrieveValueSet` attaches before rethrowing. -/
structure VSACError where
  message : String
  code : String
  statusCode : Option Nat
  guidance : List String

/-- JS `a || b` on an optional string (empty string is falsy). -/
def jsOrStr (o : Option String) (dflt : String) : String :=
  match o with
  | some s => if s ≠ "" then s else dflt
  | none => dflt

/-- Does the first list start with the second? -/
def startsWithChars : List Char → List Char → Bool
  | _, [] => true
  | [], _ :: _ => false
  | x :: xs, c :: cs => x == c && startsWithChars xs cs

/-- Does `sub` occur contiguously inside `l`? -/
def occursIn (sub : List Char) : List Char → Bool
  | [] => sub.isEmpty
  | x :: rest => startsWithChars (x :: rest) sub || occursIn sub rest

/-- `String.prototype.includes` (case-sensitive substring test). -/
def jsIncludes (s sub : String) : Bool := occursIn sub.data s.data

/-- `handleVsacError` (vsacErrorHandler.js lines 12-96): discriminate on the
transport response status when a response exists (only 500/502/503 map to
SERVICE_UNAVAILABLE; any other unlisted status falls to API_ERROR), otherwise
on the local fault code and message.  The JS function always throws; the
embedding returns the thrown `VSACError` (guidance not yet attached). -/
def handleVsacError (error : RawError) (valueSetId : String) : VSACError :=
  match error.response with
  | some r =>
    match r.status with
    | 401 => ⟨"VSAC authentication failed. Check your UMLS username and password.",
              "AUTH_FAILED", some 401, []⟩
    | 403 => ⟨"VSAC access forbidden. Ensure your UMLS account has VSAC access enabled.",
              "ACCESS_FORBIDDEN", some 403, []⟩
    | 404 => ⟨"Value set not found: " ++ valueSetId ++ ". Verify the OID is correct.",
              "VALUESET_NOT_FOUND", some 404, []⟩
    | 429 => ⟨"VSAC rate limit exceeded. Please wait before retrying.",
              "RATE_LIMIT", some 429, []⟩
    | 500 | 502 | 503 =>
      ⟨"VSAC service temporarily unavailable. Please try again later.",
       "SERVICE_UNAVAILABLE", some r.status, []⟩
    | s => ⟨"VSAC API error (" ++ toString s ++ "): " ++ jsOrStr r.data error.message,
            "API_ERROR", some s, []⟩
  | none =>
    if error.code == some "ENOTFOUND" || error.code == some "ECONNREFUSED" then
      ⟨"Unable to connect to VSAC. Check your internet connection.", "NETWORK_ERROR", none, []⟩
    else if error.code == some "ECONNABORTED" || jsIncludes error.message "timeout" then
      ⟨"VSAC request timed out. The service may be slow, try again.", "TIMEOUT", none, []⟩
    else if jsIncludes error.message "XML" || jsIncludes error.message "parse" then
      ⟨"Invalid response from VSAC. The value set may be empty or malformed.",
       "INVALID_RESPONSE", none, []⟩
    else
      ⟨"Unexpected VSAC error: " ++ error.message, "UNKNOWN_ERROR", none, []⟩

/-- `getVsacErrorGuidance` (vsacErrorHandler.js lines 98-147): a fixed lookup
table keyed by the error code, with a generic default. -/
def getVsacErrorGuidance (e : VSACError) : List String :=
  match e.code with
  | "AUTH_FAILED" =>
    ["Verify your UMLS username and password",
     "Check if your UMLS account is active",
     "Try logging into https://uts.nlm.nih.gov/uts/ manually"]
  | "ACCESS_FORBIDDEN" =>
    ["Log into your UMLS account at https://uts.nlm.nih.gov/uts/",
     "Navigate to \"Profile\" and ensure VSAC access is enabled",
     "Contact UMLS support if access issues persist"]
  | "VALUESET_NOT_FOUND" =>
    ["Verify the ValueSet OID format (e.g., 2.16.840.1.113883.x.x.x)",
     "Check if the ValueSet exists in VSAC web interface",
     "Try searching for the ValueSet by name in VSAC"]
  | "RATE_LIMIT" =>
    ["Wait 60 seconds before retrying",
     "Reduce the number of concurrent requests",
     "Consider batching multiple ValueSet requests"]
  | "SERVICE_UNAVAILABLE" =>
    ["Wait a few minutes and retry",
     "Check VSAC service status",
     "Try during off-peak hours"]
  | "NETWORK_ERROR" =>
    ["Check your internet connection",
     "Verify firewall/proxy settings allow HTTPS to vsac.nlm.nih.gov",
     "Try from a different network"]
  | "TIMEOUT" =>
    ["Retry with a smaller batch size",
     "Try during off-peak hours when VSAC is less busy",
     "Check your network connection speed"]
  | "INVALID_RESPONSE" =>
    ["The ValueSet may be empty or contain malformed data",
     "Try accessing the ValueSet through VSAC web interface",
     "Report the issue if the ValueSet appears valid in VSAC"]
  | _ =>
    ["Check the error message for specific details",
     "Verify your VSAC credentials and network connection",
     "Try again after a short wait"]

/-- The guidance attachment done in `retrieveValueSet`'s catch block
(vsacService.js lines 67-71). -/
def attachGuidance (v : VSACError) : VSACError :=
  { v with guidance := getVsacErrorGuidance v }

/-- Outcome of one network attempt: a transported response whose XML-parse
outcome is `body`, or a transport-level failure. -/
inductive TransportOutcome where
  | ok (body : Except String JValue)
  | fail (raw : RawError)

/-- JS truthiness of an optional string parameter (`undefined` and `""` are
falsy). -/
def optTruthy (o : Option String) : Bool :=
  match o with
  | some s => s ≠ ""
  | none => false

/-- `createBasicAuth` (vsacService.js lines 82-98): missing or empty
credentials throw before any request; the base64 transport encoding of the
header value is not modelled (the value is never inspected downstream). -/
def createBasicAuth (username password : Option String) : Except String String :=
  if !(optTruthy username) || !(optTruthy password) then
    .error "VSAC username and password are required"
  else
    .ok ("Basic " ++ jsTrim (username.getD "") ++ ":" ++ jsTrim (password.getD ""))

/-- The cache key `identifier + "_" + (version || "latest")`
(vsacService.js line 25). -/
def cacheKey (valueSetIdentifier : String) (version : Option String) : String :=
  valueSetIdentifier ++ "_" ++ jsOrStr version "latest"

/-- `Map.prototype.set`: update in place when the key exists, append
otherwise. -/
def upsert {α : Type} : List (String × α) → String → α → List (String × α)
  | [], k, v => [(k, v)]
  | (k0, v0) :: rest, k, v =>
    if k0 == k then (k0, v) :: rest else (k0, v0) :: upsert rest k v

/-- Result of one `retrieveValueSet` call: the returned value or thrown
error, the cache state afterwards, and how many network requests were
issued. -/
structure RetrieveResult where
  result : Except VSACError ValueSetResult
  cache : List (String × ValueSetResult)
  networkCalls : Nat

/-- `retrieveValueSet` (vsacService.js lines 24-74): cache check first, then
credential validation (`createBasicAuth` throws inside the try before the
request), then one network attempt; a successfully transported response is
normalized and cached, a transport failure is converted by the error handler,
given guidance, and rethrown without caching. -/
def retrieveValueSet (outcome : TransportOutcome) (valueSetIdentifier : String)
    (version : Option String) (username password : Option String)
    (cache : List (String × ValueSetResult)) : RetrieveResult :=
  match cache.lookup (cacheKey valueSetIdentifier version) with
  | some cached => ⟨.ok cached, cache, 0⟩
  | none =>
    match createBasicAuth username password with
    | .error msg =>
      ⟨.error (attachGuidance (handleVsacError ⟨none, none, msg⟩ valueSetIdentifier)),
       cache, 0⟩
    | .ok _ =>
      match outcome with
      | .ok body =>
        ⟨.ok (parseVsacResponse body),
         upsert cache (cacheKey valueSetIdentifier version) (parseVsacResponse body), 1⟩
      | .fail raw =>
        ⟨.error (attachGuidance (handleVsacError raw valueSetIdentifier)), cache, 1⟩

/-- One entry of the batch result map: the value-set payload plus the
`error` field set only on a failed retrieval. -/
structure BatchEntry where
  metadata : ValueSetMetadata
  concepts : List ConceptSummary
  error : Option String

/-- The per-OID failure entry built in the catch block of
`retrieveMultipleValueSets` (vsacService.js lines 390-404). -/
def failureEntry (oid msg : String) : BatchEntry :=
  ⟨{ emptyMetadata with
      id := some (.str oid)
      displayName := some (.str "Error")
      status := some (.str "ERROR") },
   [], some msg⟩

/-- `retrieveMultipleValueSets` (vsacService.js lines 378-414): every OID is
retrieved with `version = null`, failures are caught at the per-OID boundary
and turned into a `failureEntry`, and each result is assigned into the result
map.  The source fans out in windows of 3 concurrently in-flight requests
(window N+1 starts after window N settles); since execution is
single-threaded cooperative and each entry's value depends only on its own
OID's outcome, the result map is modelled by sequential per-OID processing,
threading the cache. -/
def batchStep (outcomes : String → TransportOutcome) (username password : Option String)
    (st : List (String × BatchEntry) × List (String × ValueSetResult)) (oid : String) :
    List (String × BatchEntry) × List (String × ValueSetResult) :=
  match retrieveValueSet (outcomes oid) oid none username password st.2 with
  | ⟨.ok v, cache2, _⟩ => (upsert st.1 oid ⟨v.metadata, v.concepts, none⟩, cache2)
  | ⟨.error e, cache2, _⟩ => (upsert st.1 oid (failureEntry oid e.message), cache2)

def retrieveMultipleValueSets (outcomes : String → TransportOutcome)
    (valueSetIds : List String) (username password : Option String)
    (cache : List (String × ValueSetResult)) :
    List (String × BatchEntry) × List (String × ValueSetResult) :=
  valueSetIds.foldl (batchStep outcomes username password) ([], cache)

theorem lookup_upsert {α : Type} (l : List (String × α)) (k q : String) (v : α) :
    (upsert l k v).lookup q = if q == k then some v else l.lookup q := by
  induction l with
  | nil =>
    by_cases hq : (q == k) = true <;> simp [upsert, List.lookup, hq]
  | cons kv rest ih =>
    obtain ⟨k0, v0⟩ := kv
    by_cases hk : (k0 == k) = true
    · have hk' : k0 = k := by simpa using hk
      subst hk'
      by_cases hq : (q == k0) = true <;> simp [upsert, List.lookup, hq]
    · by_cases hq : (q == k0) = true
      · have hq' : q = k0 := by simpa using hq
        subst hq'
        have hqk : (q == k) = false := by simpa using hk
        simp [upsert, List.lookup, hk, hq, hqk]
      · simp [upsert, List.lookup, hk, hq, ih]

theorem retrieveValueSet_hit {outcome : TransportOutcome} {vsid : String}
    {version u p : Option String} {cache : List (String × ValueSetResult)}
    {r : ValueSetResult} (h : cache.lookup (cacheKey vsid version) = some r) :
    retrieveValueSet outcome vsid version u p cache = ⟨.ok r, cache, 0⟩ := by
  unfold retrieveValueSet
  rw [h]

theorem createBasicAuth_valid {u p : Option String} (hu : optTruthy u = true)
    (hp : optTruthy p = true) :
    createBasicAuth u p =
      .ok ("Basic " ++ jsTrim (u.getD "") ++ ":" ++ jsTrim (p.getD "")) := by
  unfold createBasicAuth
  rw [hu, hp]
  rfl

theorem retrieveValueSet_miss_ok {body : Except String JValue} {vsid : String}
    {version u p : Option String} {cache : List (String × ValueSetResult)}
    (hmiss : cache.lookup (cacheKey vsid version) = none)
    (hu : optTruthy u = true) (hp : optTruthy p = true) :
    retrieveValueSet (.ok body) vsid version u p cache =
      ⟨.ok (parseVsacResponse body),
       upsert cache (cacheKey vsid version) (parseVsacResponse body), 1⟩ := by
  unfold retrieveValueSet
  rw [hmiss, createBasicAuth_valid hu hp]

theorem retrieveValueSet_miss_fail {raw : RawError} {vsid : String}
    {version u p : Option String} {cache : List (String × ValueSetResult)}
    (hmiss : cache.lookup (cacheKey vsid version) = none)
    (hu : optTruthy u = true) (hp : optTruthy p = true) :
    retrieveValueSet (.fail raw) vsid version u p cache =
      ⟨.error (attachGuidance (handleVsacError raw vsid)), cache, 1⟩ := by
  unfold retrieveValueSet
  rw [hmiss, createBasicAuth_valid hu hp]

theorem retrieveValueSet_nocreds {outcome : TransportOutcome} {vsid : String}
    {version u p : Option String} {cache : List (String × ValueSetResult)}
    (hmiss : cache.lookup (cacheKey vsid version) = none)
    (hcred : optTruthy u = false ∨ optTruthy p = false) :
    retrieveValueSet outcome vsid version u p cache =
      ⟨.error (attachGuidance (handleVsacError
          ⟨none, none, "VSAC username and password are required"⟩ vsid)),
       cache, 0⟩ := by
  unfold retrieveValueSet
  rw [hmiss]
  have hauth : createBasicAuth u p = .error "VSAC username and password are required" := by
    unfold createBasicAuth
    rcases hcred with h | h <;> rw [h] <;> simp
  rw [hauth]

/-- C6: with valid credentials and no cache entry for `(identifier, version)`,
a first call with a successfully transported response issues one network call
and caches the normalized result under `identifier + "_" + (version or
"latest")`; a second call with the same pair issues zero network calls and
returns a result equal to the first; and a transport-level failure leaves the
cache unchanged (nothing is stored) so a subsequent call retries the
network. -/
theorem c6_cache_idempotence (vsid : String) (version u p : Option String)
    (cache : List (String × ValueSetResult)) (body : Except String JValue)
    (o2 : TransportOutcome) (raw : RawError)
    (hu : optTruthy u = true) (hp : optTruthy p = true)
    (hmiss : cache.lookup (cacheKey vsid version) = none) :
    (retrieveValueSet (.ok body) vsid version u p cache).networkCalls = 1 ∧
    (retrieveValueSet (.ok body) vsid version u p cache).result =
      .ok (parseVsacResponse body) ∧
    (retrieveValueSet (.ok body) vsid version u p cache).cache =
      upsert cache (cacheKey vsid version) (parseVsacResponse body) ∧
    (retrieveValueSet o2 vsid version u p
        (retrieveValueSet (.ok body) vsid version u p cache).cache).networkCalls = 0 ∧
    (retrieveValueSet o2 vsid version u p
        (retrieveValueSet (.ok body) vsid version u p cache).cache).result =
      (retrieveValueSet (.ok body) vsid version u p cache).result ∧
    (retrieveValueSet (.fail raw) vsid version u p cache).cache = cache ∧
    (retrieveValueSet (.fail raw) vsid version u p cache).networkCalls = 1 ∧
    (retrieveValueSet (.ok body) vsid version u p
        (retrieveValueSet (.fail raw) vsid version u p cache).cache).networkCalls = 1 := by
  have h1 := @retrieveValueSet_miss_ok body vsid version u p cache hmiss hu hp
  have hlook : (upsert cache (cacheKey vsid version) (parseVsacResponse body)).lookup
      (cacheKey vsid version) = some (parseVsacResponse body) := by
    rw [lookup_upsert]
    simp
  have h2 := @retrieveValueSet_hit o2 vsid version u p _ _ hlook
  have h3 := @retrieveValueSet_miss_fail raw vsid version u p cache hmiss hu hp
  refine ⟨by rw [h1], by rw [h1], by rw [h1], ?_, ?_, by rw [h3], by rw [h3], ?_⟩
  · rw [h1]
    show (retrieveValueSet o2 vsid version u p _).networkCalls = 0
    rw [h2]
  · rw [h1]
    show (retrieveValueSet o2 vsid version u p _).result = _
    rw [h2]
  · rw [h3]
    show (retrieveValueSet (.ok body) vsid version u p cache).networkCalls = 1
    rw [h1]

/-- Witness for `c6_cache_idempotence` at concrete inputs (fresh empty cache,
literal credentials, a parse-failed but successfully transported body). -/
theorem c6_witness :
    (retrieveValueSet (.ok (.error "boom")) "2.16.840.1.113883" none
        (some "user") (some "pw") []).networkCalls = 1 ∧
    (retrieveValueSet (.ok (.error "boom")) "2.16.840.1.113883" none
        (some "user") (some "pw") []).result =
      .ok (parseVsacResponse (.error "boom")) := by
  have h := c6_cache_idempotence "2.16.840.1.113883" none (some "user") (some "pw")
    [] (.error "boom") (.ok (.error "boom")) ⟨none, none, "x"⟩ (by decide) (by decide) rfl
  exact ⟨h.1, h.2.1⟩

/-- C9 (amended): a `retrieveValueSet` call that misses the cache and has
absent or empty credentials reports an error to the caller with zero network
calls — the `createBasicAuth` throw happens before the request and is wrapped
as an `UNKNOWN_ERROR` `VSACError` — and leaves the cache unchanged.  (The
claim's unrestricted version is false: the cache check precedes the
credential check, so a cache hit returns the cached result with no error even
when credentials are absent — see the counterexample.) -/
theorem c9_error_before_network_on_cache_miss (outcome : TransportOutcome)
    (vsid : String) (version u p : Option String)
    (cache : List (String × ValueSetResult))
    (hmiss : cache.lookup (cacheKey vsid version) = none)
    (hcred : optTruthy u = false ∨ optTruthy p = false) :
    retrieveValueSet outcome vsid version u p cache =
      ⟨.error (attachGuidance (handleVsacError
          ⟨none, none, "VSAC username and password are required"⟩ vsid)),
       cache, 0⟩ ∧
    (handleVsacError ⟨none, none, "VSAC username and password are required"⟩ vsid).code =
      "UNKNOWN_ERROR" ∧
    (retrieveValueSet outcome vsid version u p cache).networkCalls = 0 := by
  have h := @retrieveValueSet_nocreds outcome vsid version u p cache hmiss hcred
  exact ⟨h, rfl, by rw [h]⟩

/-- Counterexample to C9 as stated: a call with absent credentials whose key
is already cached returns the cached result successfully — no error is
reported — because the cache check precedes the credential check. -/
theorem c9_counterexample :
    (retrieveValueSet (.fail ⟨none, none, "network down"⟩) "1.2.3" none none none
        [("1.2.3_latest", ⟨emptyMetadata, []⟩)]).result = .ok ⟨emptyMetadata, []⟩ ∧
    (retrieveValueSet (.fail ⟨none, none, "network down"⟩) "1.2.3" none none none
        [("1.2.3_latest", ⟨emptyMetadata, []⟩)]).networkCalls = 0 := by
  exact ⟨rfl, rfl⟩

/-- Witness for `c9_error_before_network_on_cache_miss` at concrete inputs. -/
theorem c9_witness :
    (retrieveValueSet (.ok (.ok (.obj []))) "1.2.3" none none (some "pw") []).result =
      .error (attachGuidance (handleVsacError
        ⟨none, none, "VSAC username and password are required"⟩ "1.2.3")) ∧
    (retrieveValueSet (.ok (.ok (.obj []))) "1.2.3" none none (some "pw") []).networkCalls = 0 := by
  have h := c9_error_before_network_on_cache_miss (.ok (.ok (.obj []))) "1.2.3" none
    none (some "pw") [] rfl (Or.inl rfl)
  exact ⟨by rw [h.1], h.2.2⟩

/-- C8 (amended): `handleVsacError` raises exactly one discriminated error
kind per failure: 401 maps to AUTH_FAILED, 403 to ACCESS_FORBIDDEN, 404 to
VALUESET_NOT_FOUND, 429 to RATE_LIMIT, and of the 5xx statuses exactly 500,
502 and 503 map to SERVICE_UNAVAILABLE — every other status (including 501
and 504) falls to the API_ERROR kind; a DNS/connect failure code maps to
NETWORK_ERROR, a deadline exceeded (ECONNABORTED or a message containing
"timeout") to TIMEOUT; and `getVsacErrorGuidance` is a fixed lookup table
keyed by kind with a generic default for API_ERROR and UNKNOWN_ERROR.  (The
claim's "every 5xx status to ServiceUnavailable" is refuted by the
counterexample at status 504.) -/
theorem c8_error_discrimination (vsid msg : String) (body : Option String)
    (c : Option String) (st : Nat) :
    (handleVsacError ⟨some ⟨401, body⟩, c, msg⟩ vsid).code = "AUTH_FAILED" ∧
    (handleVsacError ⟨some ⟨401, body⟩, c, msg⟩ vsid).statusCode = some 401 ∧
    (handleVsacError ⟨some ⟨403, body⟩, c, msg⟩ vsid).code = "ACCESS_FORBIDDEN" ∧
    (handleVsacError ⟨some ⟨404, body⟩, c, msg⟩ vsid).code = "VALUESET_NOT_FOUND" ∧
    (handleVsacError ⟨some ⟨429, body⟩, c, msg⟩ vsid).code = "RATE_LIMIT" ∧
    ((st = 500 ∨ st = 502 ∨ st = 503) →
      handleVsacError ⟨some ⟨st, body⟩, c, msg⟩ vsid =
        ⟨"VSAC service temporarily unavailable. Please try again later.",
         "SERVICE_UNAVAILABLE", some st, []⟩) ∧
    (st ≠ 401 → st ≠ 403 → st ≠ 404 → st ≠ 429 → st ≠ 500 → st ≠ 502 → st ≠ 503 →
      (handleVsacError ⟨some ⟨st, body⟩, c, msg⟩ vsid).code = "API_ERROR") ∧
    (handleVsacError ⟨none, some "ENOTFOUND", msg⟩ vsid).code = "NETWORK_ERROR" ∧
    (handleVsacError ⟨none, some "ECONNREFUSED", msg⟩ vsid).code = "NETWORK_ERROR" ∧
    (handleVsacError ⟨none, some "ECONNABORTED", msg⟩ vsid).code = "TIMEOUT" ∧
    (jsIncludes msg "timeout" = true →
      (handleVsacError ⟨none, none, msg⟩ vsid).code = "TIMEOUT") ∧
    (∀ (m : String) (sc : Option Nat) (g : List String),
      getVsacErrorGuidance ⟨m, "AUTH_FAILED", sc, g⟩ =
        ["Verify your UMLS username and password",
         "Check if your UMLS account is active",
         "Try logging into https://uts.nlm.nih.gov/uts/ manually"] ∧
      getVsacErrorGuidance ⟨m, "SERVICE_UNAVAILABLE", sc, g⟩ =
        ["Wait a few minutes and retry",
         "Check VSAC service status",
         "Try during off-peak hours"] ∧
      getVsacErrorGuidance ⟨m, "API_ERROR", sc, g⟩ =
        ["Check the error message for specific details",
         "Verify your VSAC credentials and network connection",
         "Try again after a short wait"] ∧
      getVsacErrorGuidance ⟨m, "UNKNOWN_ERROR", sc, g⟩ =
        getVsacErrorGuidance ⟨m, "API_ERROR", sc, g⟩) := by
  refine ⟨rfl, rfl, rfl, rfl, rfl, ?_, ?_, rfl, rfl, rfl, ?_, ?_⟩
  · rintro (rfl | rfl | rfl) <;> rfl
  · intro h1 h2 h3 h4 h5 h6 h7
    unfold handleVsacError
    split
    · rename_i r heq
      have heq2 : (⟨st, body⟩ : RespInfo) = r := by simpa using heq
      subst heq2
      split <;> simp_all
    · simp_all
  · intro ht
    unfold handleVsacError
    simp only [ht]
    rfl
  · intro m sc g
    exact ⟨rfl, rfl, rfl, rfl⟩

/-- Counterexample to C8 as stated: the 5xx status 504 is mapped to the
API_ERROR kind, not SERVICE_UNAVAILABLE. -/
theorem c8_counterexample :
    (handleVsacError ⟨some ⟨504, none⟩, none, "m"⟩ "1.2.3").code = "API_ERROR" ∧
    (handleVsacError ⟨some ⟨504, none⟩, none, "m"⟩ "1.2.3").code ≠ "SERVICE_UNAVAILABLE" := by
  exact ⟨rfl, by decide⟩

/-- Witness for the conditional parts of `c8_error_discrimination` at
concrete statuses and messages. -/
theorem c8_witness :
    handleVsacError ⟨some ⟨502, none⟩, none, "m"⟩ "x" =
      ⟨"VSAC service temporarily unavailable. Please try again later.",
       "SERVICE_UNAVAILABLE", some 502, []⟩ ∧
    (handleVsacError ⟨some ⟨418, none⟩, none, "m"⟩ "x").code = "API_ERROR" ∧
    (handleVsacError ⟨none, none, "timeout of 30000ms exceeded"⟩ "x").code = "TIMEOUT" := by
  refine ⟨?_, ?_, ?_⟩
  · exact (c8_error_discrimination "x" "m" none none 502).2.2.2.2.2.1 (Or.inr (Or.inl rfl))
  · exact (c8_error_discrimination "x" "m" none none 418).2.2.2.2.2.2.1
      (by omega) (by omega) (by omega) (by omega) (by omega) (by omega) (by omega)
  · exact (c8_error_discrimination "x" "timeout of 30000ms exceeded" none none 0).2.2.2.2.2.2.2.2.2.2.1
      (by decide)

/-- The batch entry a given OID must end up with, determined solely by its own
transport outcome (with valid credentials). -/
def expectedBatchEntry (outcomes : String → TransportOutcome) (oid : String) : BatchEntry :=
  match outcomes oid with
  | .ok body => ⟨(parseVsacResponse body).metadata, (parseVsacResponse body).concepts, none⟩
  | .fail raw => failureEntry oid (handleVsacError raw oid).message

/-- Cache invariant of the batch loop: every entry keyed `oid + "_latest"`
came from a successfully transported response for that OID. -/
def goodCache (outcomes : String → TransportOutcome)
    (cache : List (String × ValueSetResult)) : Prop :=
  ∀ oid v, cache.lookup (cacheKey oid none) = some v →
    ∃ body, outcomes oid = .ok body ∧ v = parseVsacResponse body

theorem append_right_cancel_chars {a b s : List Char} (h : a ++ s = b ++ s) : a = b := by
  have hlen : a.length = b.length := by
    have hl := congrArg List.length h
    simp only [List.length_append] at hl
    omega
  calc a = (a ++ s).take a.length := (List.take_left a s).symm
    _ = (b ++ s).take b.length := by rw [h, hlen]
    _ = b := List.take_left b s

theorem string_append_right_cancel {a b s : String} (h : a ++ s = b ++ s) : a = b := by
  have hd : a.data ++ s.data = b.data ++ s.data := congrArg String.data h
  have he := append_right_cancel_chars hd
  cases a
  cases b
  exact congrArg String.mk he

theorem cacheKey_latest_inj {a b : String} (h : cacheKey a none = cacheKey b none) :
    a = b := by
  have h1 : (a ++ "_") ++ "latest" = (b ++ "_") ++ "latest" := h
  exact string_append_right_cancel (string_append_right_cancel h1)

theorem batch_step_spec (outcomes : String → TransportOutcome) {u p : Option String}
    (hu : optTruthy u = true) (hp : optTruthy p = true) (oid : String)
    (acc : List (String × BatchEntry)) (cache : List (String × ValueSetResult))
    (hg : goodCache outcomes cache) :
    ∃ cache2, batchStep outcomes u p (acc, cache) oid =
        (upsert acc oid (expectedBatchEntry outcomes oid), cache2) ∧
      goodCache outcomes cache2 := by
  cases hl : cache.lookup (cacheKey oid none) with
  | some v =>
    obtain ⟨body, hb, rfl⟩ := hg oid v hl
    refine ⟨cache, ?_, hg⟩
    rw [batchStep, @retrieveValueSet_hit (outcomes oid) oid none u p cache _ hl]
    rw [expectedBatchEntry, hb]
  | none =>
    cases ho : outcomes oid with
    | ok body =>
      refine ⟨upsert cache (cacheKey oid none) (parseVsacResponse body), ?_, ?_⟩
      · rw [batchStep, ho, retrieveValueSet_miss_ok hl hu hp, expectedBatchEntry, ho]
      · intro oid2 v2 hl2
        rw [lookup_upsert] at hl2
        by_cases hk : (cacheKey oid2 none == cacheKey oid none) = true
        · rw [if_pos hk] at hl2
          have : oid2 = oid := cacheKey_latest_inj (by simpa using hk)
          subst this
          exact ⟨body, ho, by simpa using hl2.symm⟩
        · rw [if_neg hk] at hl2
          exact hg oid2 v2 hl2
    | fail raw =>
      refine ⟨cache, ?_, hg⟩
      rw [batchStep, ho, retrieveValueSet_miss_fail hl hu hp, expectedBatchEntry, ho]
      rfl

theorem batch_fold_spec (outcomes : String → TransportOutcome) {u p : Option String}
    (hu : optTruthy u = true) (hp : optTruthy p = true) :
    ∀ (oids : List String) (acc : List (String × BatchEntry))
      (cache : List (String × ValueSetResult)), goodCache outcomes cache →
      (oids.foldl (batchStep outcomes u p) (acc, cache)).1 =
        oids.foldl (fun a oid => upsert a oid (expectedBatchEntry outcomes oid)) acc := by
  intro oids
  induction oids with
  | nil => intro acc cache _; rfl
  | cons oid rest ih =>
    intro acc cache hg
    obtain ⟨cache2, hstep, hg2⟩ := batch_step_spec outcomes hu hp oid acc cache hg
    rw [List.foldl_cons, List.foldl_cons, hstep]
    exact ih _ cache2 hg2

theorem upsert_map_self (f : String → BatchEntry) :
    ∀ (seen : List String) (oid : String), oid ∈ seen →
      upsert (seen.map (fun o => (o, f o))) oid (f oid) = seen.map (fun o => (o, f o)) := by
  intro seen
  induction seen with
  | nil => intro oid h; simp at h
  | cons s rest ih =>
    intro oid h
    by_cases hs : (s == oid) = true
    · have : s = oid := by simpa using hs
      subst this
      simp [upsert]
    · have hne : ¬ s = oid := by simpa using hs
      have hmem : oid ∈ rest := by
        rcases List.mem_cons.mp h with rfl | hm
        · exact absurd rfl hne
        · exact hm
      simp only [List.map_cons, upsert, hs, if_false]
      rw [ih oid hmem]
      simp

theorem upsert_map_append (f : String → BatchEntry) :
    ∀ (seen : List String) (oid : String), oid ∉ seen →
      upsert (seen.map (fun o => (o, f o))) oid (f oid) =
        (seen ++ [oid]).map (fun o => (o, f o)) := by
  intro seen
  induction seen with
  | nil => intro oid _; rfl
  | cons s rest ih =>
    intro oid h
    have hne : (s == oid) = false := by
      simp only [beq_eq_false_iff_ne, ne_eq]
      intro heq
      exact h (heq ▸ List.mem_cons_self _ _)
    simp only [List.map_cons, upsert, hne, if_false, List.cons_append]
    rw [ih oid (fun hm => h (List.mem_cons_of_mem _ hm))]
    simp

theorem foldl_upsert_expected (f : String → BatchEntry) :
    ∀ (oids seen : List String),
      oids.foldl (fun a oid => upsert a oid (f oid)) (seen.map (fun o => (o, f o))) =
        (oids.foldl addUnique seen).map (fun o => (o, f o)) := by
  intro oids
  induction oids with
  | nil => intro seen; rfl
  | cons oid rest ih =>
    intro seen
    rw [List.foldl_cons, List.foldl_cons]
    by_cases hmem : oid ∈ seen
    · rw [upsert_map_self f seen oid hmem, show addUnique seen oid = seen by
        simp [addUnique, hmem]]
      exact ih seen
    · rw [upsert_map_append f seen oid hmem, show addUnique seen oid = seen ++ [oid] by
        simp [addUnique, hmem]]
      exact ih (seen ++ [oid])

theorem mem_addUnique_of_mem {seen : List String} {x : String} (h : x ∈ seen)
    (oid : String) : x ∈ addUnique seen oid := by
  unfold addUnique
  split
  · exact h
  · exact List.mem_append_left _ h

theorem self_mem_addUnique (seen : List String) (oid : String) : oid ∈ addUnique seen oid := by
  unfold addUnique
  split
  · assumption
  · exact List.mem_append_right _ (List.mem_singleton.mpr rfl)

theorem mem_foldl_addUnique :
    ∀ (oids seen : List String) (x : String), x ∈ seen ∨ x ∈ oids →
      x ∈ oids.foldl addUnique seen := by
  intro oids
  induction oids with
  | nil =>
    intro seen x h
    rcases h with h | h
    · exact h
    · simp at h
  | cons oid rest ih =>
    intro seen x h
    rw [List.foldl_cons]
    rcases h with h | h
    · exact ih _ x (Or.inl (mem_addUnique_of_mem h oid))
    · rcases List.mem_cons.mp h with rfl | hm
      · exact ih _ x (Or.inl (self_mem_addUnique seen x))
      · exact ih _ x (Or.inr hm)

theorem mem_dedupFirstSeen {oids : List String} {x : String} (h : x ∈ oids) :
    x ∈ dedupFirstSeen oids :=
  mem_foldl_addUnique oids [] x (Or.inr h)

theorem lookup_map_of_mem (f : String → BatchEntry) :
    ∀ (l : List String) (x : String), x ∈ l →
      (l.map (fun o => (o, f o))).lookup x = some (f x) := by
  intro l
  induction l with
  | nil => intro x h; simp at h
  | cons o rest ih =>
    intro x h
    by_cases ho : (x == o) = true
    · have : x = o := by simpa using ho
      subst this
      simp [List.lookup, ho]
    · have hm : x ∈ rest := by
        rcases List.mem_cons.mp h with rfl | hm
        · simp at ho
        · exact hm
      simp [List.lookup, ho, ih x hm]

/-- C7: with valid credentials, a batch retrieval starting from an empty
cache returns a map whose key list is exactly the unique input OIDs in
first-seen order (one entry per unique OID, duplicates collapsed, failures
included); the entry of every OID is determined by its own outcome, a failing
OID's entry being the `failureEntry` with the error handler's message, an
empty concepts array, and an error-marked status; the whole batch is a total
function — no per-OID failure aborts it. -/
theorem c7_batch_completeness_and_isolation (outcomes : String → TransportOutcome)
    (oids : List String) (u p : Option String)
    (hu : optTruthy u = true) (hp : optTruthy p = true) :
    (retrieveMultipleValueSets outcomes oids u p []).1 =
      (dedupFirstSeen oids).map (fun oid => (oid, expectedBatchEntry outcomes oid)) ∧
    ((retrieveMultipleValueSets outcomes oids u p []).1).map Prod.fst =
      dedupFirstSeen oids ∧
    (∀ oid raw, oid ∈ oids → outcomes oid = .fail raw →
      ((retrieveMultipleValueSets outcomes oids u p []).1).lookup oid =
        some (failureEntry oid (handleVsacError raw oid).message)) ∧
    (∀ oid msg, (failureEntry oid msg).concepts = [] ∧
      (failureEntry oid msg).error = some msg ∧
      (failureEntry oid msg).metadata.status = some (.str "ERROR")) := by
  have hgood : goodCache outcomes [] := by
    intro oid v h
    simp [List.lookup] at h
  have hmain : (retrieveMultipleValueSets outcomes oids u p []).1 =
      (dedupFirstSeen oids).map (fun oid => (oid, expectedBatchEntry outcomes oid)) := by
    unfold retrieveMultipleValueSets
    rw [batch_fold_spec outcomes hu hp oids [] [] hgood]
    have := foldl_upsert_expected (expectedBatchEntry outcomes) oids []
    simpa [dedupFirstSeen] using this
  refine ⟨hmain, ?_, ?_, ?_⟩
  · rw [hmain, List.map_map]
    have : (Prod.fst ∘ fun oid => (oid, expectedBatchEntry outcomes oid)) = id := by
      funext x
      rfl
    rw [this, List.map_id]
  · intro oid raw hmem hraw
    rw [hmain, lookup_map_of_mem _ _ oid (mem_dedupFirstSeen hmem)]
    rw [expectedBatchEntry, hraw]
  · intro oid msg
    exact ⟨rfl, rfl, rfl⟩

/-- Witness for `c7_batch_completeness_and_isolation` at a concrete failing
batch with a duplicate OID. -/
theorem c7_witness :
    (retrieveMultipleValueSets (fun _ => .fail ⟨none, none, "down"⟩)
        ["1.2", "1.2", "9.9"] (some "user") (some "pw") []).1 =
      (dedupFirstSeen ["1.2", "1.2", "9.9"]).map
        (fun oid => (oid, expectedBatchEntry (fun _ => .fail ⟨none, none, "down"⟩) oid)) :=
  (c7_batch_completeness_and_isolation (fun _ => .fail ⟨none, none, "down"⟩)
    ["1.2", "1.2", "9.9"] (some "user") (some "pw") (by decide) (by decide)).1
